import Mathlib

/-!
# Calldata generation of the protocol registry

A shallow embedding of `pkg/rocket_pool.go` (the dynamic, address-resolving
Rocket Pool operation) together with the parts of its collaborators that the
code calls: the ABI packer of go-ethereum (`abi.Pack`), `hex.EncodeToString`,
and the read-only contract call that returns the live deposit cap. The
lending-market operation, of which only the test file is at hand, is modelled
from the spec.

Go functions returning `(T, error)` are embedded as functions returning a pair
`T × Option GoError`; a run that ends in a runtime panic is a separate outcome.
The packer is embedded for both of its behaviours towards a negative integer
(`PackerRelease`), and every statement about it holds for either.
-/

namespace ProtocolRegistry

/-! ## Go values, errors and outcomes -/

/-- Modelled from the spec: the `ContractAction` enumeration is declared outside
the two files; the spec (§3) calls it an enumerated tag naming the business
operation. The constants the files mention are kept apart, every other member
is `other`. -/
inductive ContractAction
  | LoanSupply
  | LoanWithdraw
  | NativeStake
  | SubmitAction
  | WithdrawAction
  | other (tag : Nat)
  deriving DecidableEq, Repr

/-- Modelled from the spec: the protocol identifiers are declared outside the
two files; the spec (§3) calls them enumerated tags, distinct per fork. -/
inductive ProtocolName
  | AaveV3
  | SparkLend
  | RocketPool
  | other (name : String)
  deriving DecidableEq, Repr

/-- The `reflect.Kind` of a Go value, as far as `abi.Pack` looks at it. -/
inductive GoKind
  | Invalid
  | Bool
  | Uint8
  | Uint16
  | Uint32
  | Uint64
  | Array
  | Ptr
  | String
  deriving DecidableEq, Repr

/-- A Go `error` value. -/
inductive GoError
  /-- The value of `errors.New(msg)`. -/
  | errorsNew (msg : String)
  /-- An error handed back by the chain client or the Rocket Pool bindings. -/
  | external (msg : String)
  /-- The packer: `method '%s' not found`. -/
  | methodNotFound (name : String)
  /-- The packer: `argument count mismatch: got %d for %d`. -/
  | argumentCountMismatch (got want : Nat)
  /-- The packer: `abi: cannot use %v as type %v as argument`. -/
  | typeErr (want got : GoKind)
  /-- The packer: `abi: negatively-signed value cannot be packed into uint parameter`. -/
  | invalidSign
  /-- The value of `fmt.Errorf("failed to generate calldata for %s: %w", action, cause)`. -/
  | generateFailed (action : ContractAction) (cause : GoError)
  deriving DecidableEq, Repr

/-- How a Go call ends: it returns its results, or the goroutine panics. -/
inductive Run (α : Type)
  | returned (a : α)
  | panicked (msg : String)
  deriving DecidableEq, Repr

/-- A `common.Address`: twenty bytes, kept as the number they spell big-endian. -/
abbrev Address : Type := Fin (2 ^ 160)

/-- The Go values an argument list (`[]interface{}`) is built from here. -/
inductive GoValue
  /-- The nil interface value. -/
  | nilValue
  /-- A `*big.Int`; `none` is the nil pointer. -/
  | bigInt (p : Option Int)
  /-- A `common.Address`. -/
  | address (a : Address)
  /-- A byte array `[n]byte` that is not an address, given by its bytes (each modulo 256). -/
  | byteArray (bs : List Nat)
  /-- A `uint16`, the value being `n` modulo `2^16`. -/
  | uint16 (n : Nat)
  /-- A `uint64`, the value being `n` modulo `2^64`. -/
  | uint64 (n : Nat)
  /-- A `string`. -/
  | str (s : String)
  /-- A `bool`. -/
  | bool (b : Bool)
  deriving DecidableEq, Repr

/-- The kind `reflect.ValueOf(v).Kind()` reports. -/
def GoValue.kind : GoValue → GoKind
  | .nilValue => .Invalid
  | .bigInt _ => .Ptr
  | .address _ => .Array
  | .byteArray _ => .Array
  | .uint16 _ => .Uint16
  | .uint64 _ => .Uint64
  | .str _ => .String
  | .bool _ => .Bool

/-! ## Bytes and hexadecimal text -/

/-- The `k` low-order bytes of `n`, most significant first. -/
def bigEndianBytes : Nat → Nat → List Nat
  | 0, _ => []
  | k + 1, n => bigEndianBytes k (n / 256) ++ [n % 256]

/-- The constant `hextable` of `encoding/hex`. -/
def hextable : String := "0123456789abcdef"

/-- The digit of the table at index `n`. -/
def hexDigit (n : Nat) : Char := hextable.data.getD n '0'

/-- The characters `hex.EncodeToString` writes: two digits per byte, high nibble first. -/
def encodeHexChars : List Nat → List Char
  | [] => []
  | b :: bs => hexDigit (b / 16) :: hexDigit (b % 16) :: encodeHexChars bs

/-- The function `hex.EncodeToString`. -/
def EncodeToString (bs : List Nat) : String := String.mk (encodeHexChars bs)

/-- The function `common.LeftPadBytes`: zero bytes in front up to length `l`;
a slice that is already that long is returned as it is. -/
def LeftPadBytes (slice : List Nat) (l : Nat) : List Nat :=
  if l ≤ slice.length then slice else List.replicate (l - slice.length) 0 ++ slice

/-- The function `math.U256Bytes`: the number is reduced modulo `2^256` (the
two's complement reading of a negative one) and written as 32 big-endian bytes. -/
def U256Bytes (n : Int) : List Nat := bigEndianBytes 32 (n % 2 ^ 256).toNat

/-- The bytes of an address, most significant first. -/
def Address.Bytes (a : Address) : List Nat := bigEndianBytes 20 a.val

/-! ## The ABI packer -/

/-- The argument types that occur in the ABI descriptions used here. -/
inductive AbiType
  | AddressTy
  | UintTy (size : Nat)
  deriving DecidableEq, Repr

/-- The kind of the Go type an ABI type is packed from (`Type.GetType().Kind()`):
an address is a byte array, an integer of 8, 16, 32 or 64 bits is the machine
integer of that width, every other width is a `*big.Int`. -/
def AbiType.kind : AbiType → GoKind
  | .AddressTy => .Array
  | .UintTy size =>
    if size = 8 then .Uint8
    else if size = 16 then .Uint16
    else if size = 32 then .Uint32
    else if size = 64 then .Uint64
    else .Ptr

/-- What differs between the releases of the go-ethereum packer: a negative
`*big.Int` given for an unsigned parameter is either refused with
`errInvalidSign` or written in two's complement. The two files do not fix the
release, so the packer is embedded for both. -/
structure PackerRelease where
  rejectsNegative : Bool
  deriving DecidableEq, Repr

/-- One method of a parsed ABI description. -/
structure Method where
  Name : String
  Inputs : List AbiType
  ID : List Nat
  deriving DecidableEq, Repr

/-- A parsed ABI description: its map from method names to methods. -/
structure ABI where
  Methods : List (String × Method)
  deriving DecidableEq, Repr

/-- The map lookup `abi.Methods[name]`. -/
def ABI.method (abi : ABI) (name : String) : Option Method :=
  (abi.Methods.find? fun e => e.1 == name).map Prod.snd

/-- Packing of one argument (`Type.pack`): `indirect` follows pointers and meets
the nil pointer with a panic, `typeCheck` compares kinds, `packElement` writes
the 32-byte word, after the sign check where the release has one. -/
def packValue (lib : PackerRelease) (t : AbiType) (v : GoValue) :
    Run (Except GoError (List Nat)) :=
  match v with
  | .bigInt none => .panicked "reflect: call of reflect.Value.Type on zero Value"
  | _ =>
    if t.kind ≠ v.kind then .returned (.error (.typeErr t.kind v.kind))
    else
      match t, v with
      | .AddressTy, .address a => .returned (.ok (LeftPadBytes a.Bytes 32))
      | .AddressTy, .byteArray bs => .returned (.ok (LeftPadBytes (bs.map (· % 256)) 32))
      | .UintTy _, .bigInt (some n) =>
        if lib.rejectsNegative = true ∧ n < 0 then .returned (.error .invalidSign)
        else .returned (.ok (U256Bytes n))
      | .UintTy _, .uint16 n => .returned (.ok (U256Bytes (n % 2 ^ 16 : Nat)))
      | .UintTy _, .uint64 n => .returned (.ok (U256Bytes (n % 2 ^ 64 : Nat)))
      | _, _ => .panicked "abi: fatal error"

/-- The loop of `Arguments.Pack` over arguments and their types, which have the
same length when it runs. -/
def packArgs (lib : PackerRelease) :
    List AbiType → List GoValue → Run (Except GoError (List Nat))
  | t :: ts, v :: vs =>
    match packValue lib t v with
    | .panicked m => .panicked m
    | .returned (.error e) => .returned (.error e)
    | .returned (.ok w) =>
      match packArgs lib ts vs with
      | .panicked m => .panicked m
      | .returned (.error e) => .returned (.error e)
      | .returned (.ok ws) => .returned (.ok (w ++ ws))
  | _, _ => .returned (.ok [])

/-- The method `Arguments.Pack`. -/
def Arguments.Pack (lib : PackerRelease) (inputs : List AbiType) (args : List GoValue) :
    Run (Except GoError (List Nat)) :=
  if args.length ≠ inputs.length then
    .returned (.error (.argumentCountMismatch args.length inputs.length))
  else packArgs lib inputs args

/-- The method `ABI.Pack` for a named method: the selector followed by the packed arguments. -/
def ABI.Pack (lib : PackerRelease) (abi : ABI) (name : String) (args : List GoValue) :
    Run (Except GoError (List Nat)) :=
  match abi.method name with
  | none => .returned (.error (.methodNotFound name))
  | some method =>
    match Arguments.Pack lib method.Inputs args with
    | .panicked m => .panicked m
    | .returned (.error e) => .returned (.error e)
    | .returned (.ok arguments) => .returned (.ok (method.ID ++ arguments))

/-! ## The Rocket Pool operation (`pkg/rocket_pool.go`) -/

/-- Modelled from the spec: the constant `HexPrefix` is declared outside the two
files; the spec (§6) fixes the marker in front of the digits as `0x`. -/
def HexPrefix : String := "0x"

/-- The parsed form of the constant `RocketPoolABI`, as `abi.JSON` returns it for
that text: `deposit()` without inputs and `transfer(address,uint256)`, each with
its selector (the first four bytes of the Keccak-256 hash of the signature). -/
def RocketPoolABI : ABI :=
  { Methods :=
      [("deposit", { Name := "deposit", Inputs := [], ID := [0xd0, 0xe3, 0x0d, 0xb0] }),
       ("transfer",
        { Name := "transfer", Inputs := [.AddressTy, .UintTy 256],
          ID := [0xa9, 0x05, 0x9c, 0xbb] })] }

/-- A `rocketpool.Contract` handle: the address it is bound to. -/
structure Contract where
  Address : ProtocolRegistry.Address
  deriving DecidableEq, Repr

/-- The chain as a read-only call sees it: the result of calling a method without
arguments on a contract, an error or the unsigned integer it returns. -/
structure Chain where
  Call : Contract → String → Except GoError Nat

/-- The fields of the embedded `DynamicOperation` that the file uses. -/
structure DynamicOperation where
  Protocol : ProtocolName
  Action : ContractAction
  ChainID : Int
  deriving DecidableEq, Repr

/-- The struct `RocketPoolOperation`. -/
structure RocketPoolOperation extends DynamicOperation where
  contract : Contract
  rethContract : Contract
  action : ContractAction
  parsedABI : ABI
  deriving DecidableEq, Repr

/-- The method `(*big.Int).Cmp`. -/
def bigCmp (x y : Int) : Int := if x < y then -1 else if x = y then 0 else 1

/-- The method `withdraw`. -/
def RocketPoolOperation.withdraw (lib : PackerRelease) (r : RocketPoolOperation)
    (args : List GoValue) : Run (String × Option GoError) :=
  match r.parsedABI.method "transfer" with
  | none => .returned ("", some (.errorsNew "unsupported action"))
  | some _ =>
    match r.parsedABI.Pack lib "transfer" args with
    | .panicked m => .panicked m
    | .returned (.error err) => .returned ("", some (.generateFailed r.Action err))
    | .returned (.ok calldata) => .returned (HexPrefix ++ EncodeToString calldata, none)

/-- The method `deposit`. The live cap is read first; `args[0]` is then indexed
(a runtime panic on an empty list), asserted to be a `*big.Int`, and compared
with the cap (`Cmp` dereferences its argument). -/
def RocketPoolOperation.deposit (lib : PackerRelease) (r : RocketPoolOperation)
    (chain : Chain) (args : List GoValue) : Run (String × Option GoError) :=
  match r.parsedABI.method "deposit" with
  | none => .returned ("", some (.errorsNew "unsupported action"))
  | some _ =>
    match chain.Call r.contract "getMaximumDepositAmount" with
    | .error err => .returned ("", some err)
    | .ok amount =>
      match args with
      | [] => .panicked "runtime error: index out of range [0] with length 0"
      | .bigInt none :: _ =>
        .panicked "runtime error: invalid memory address or nil pointer dereference"
      | .bigInt (some amountToDeposit) :: _ =>
        if bigCmp amount amountToDeposit = -1 then
          .returned ("", some (.errorsNew
            "rocketpool not accepting this much eth deposit at this time"))
        else
          match r.parsedABI.Pack lib "deposit" [] with
          | .panicked m => .panicked m
          | .returned (.error err) => .returned ("", some (.generateFailed r.Action err))
          | .returned (.ok calldata) =>
            .returned (HexPrefix ++ EncodeToString calldata, none)
      | _ :: _ => .returned ("", some (.errorsNew "arg is not of type *big.Int"))

/-- The method `GenerateCalldata`: it dispatches on the configured action and
does not look at `kind`, whose type `AssetKind` is declared outside the file. -/
def RocketPoolOperation.GenerateCalldata {AssetKind : Type} (lib : PackerRelease)
    (r : RocketPoolOperation) (chain : Chain) (_kind : AssetKind) (args : List GoValue) :
    Run (String × Option GoError) :=
  match r.Action with
  | .SubmitAction => r.deposit lib chain args
  | .WithdrawAction => r.withdraw lib args
  | _ => .returned ("", some (.errorsNew "unsupported action"))

/-- What the constructor meets outside the process: the outcome of dialling
the endpoint, of binding the storage contract, of each address lookup and of
each contract instantiation, as functions of the strings that were passed in. -/
structure Network where
  Dial : String → Option GoError
  NewRocketPool : String → String → Option GoError
  GetAddress : String → String → String → Except GoError (Option Address)
  MakeContract : String → String → String → Address → Except GoError Contract

/-- The constructor `NewRocketPool`. The action guard comes before every network
step; parsing the constant ABI text cannot fail, so that step has no error branch. -/
def NewRocketPool (net : Network) (rpcURL contractAddress : String)
    (action : ContractAction) : Option RocketPoolOperation × Option GoError :=
  if action ≠ .SubmitAction ∧ action ≠ .WithdrawAction then
    (none, some (.errorsNew "unsupported action"))
  else
    match net.Dial rpcURL with
    | some err => (none, some err)
    | none =>
      match net.NewRocketPool rpcURL contractAddress with
      | some err => (none, some err)
      | none =>
        match net.GetAddress rpcURL contractAddress "rocketDepositPool" with
        | .error err => (none, some err)
        | .ok none => (none, some (.errorsNew "could not fetch rocketpool address pool"))
        | .ok (some addr) =>
          match net.GetAddress rpcURL contractAddress "rocketTokenRETH" with
          | .error err => (none, some err)
          | .ok none => (none, some (.errorsNew "could not fetch rocketpool address pool"))
          | .ok (some rethAddr) =>
            match net.MakeContract rpcURL contractAddress "rocketDepositPool" addr with
            | .error err => (none, some err)
            | .ok contract =>
              match net.MakeContract rpcURL contractAddress "rocketTokenRETH" rethAddr with
              | .error err => (none, some err)
              | .ok rethContract =>
                (some
                  { Protocol := .RocketPool
                    Action := action
                    ChainID := 1
                    contract := contract
                    rethContract := rethContract
                    action := action
                    parsedABI := RocketPoolABI },
                 none)

/-! ## The lending-market operation, from the spec -/

/-- Modelled from the spec: the fork selector of `NewAaveOperation`, which is
declared outside the two files; the test names its two values. -/
inductive AaveProtocolFork
  | AaveProtocolForkAave
  | AaveProtocolForkSpark
  deriving DecidableEq, Repr

/-- Modelled from the spec: the options struct handed to the lending-market
operation, declared outside the two files; the test sets these four fields.
An amount that was not set is the nil pointer, a referral code that was not set
is `none`. -/
structure GenerateCalldataOptions where
  Asset : Address
  Amount : Option Int
  Sender : Address
  ReferalCode : Option Nat
  deriving DecidableEq, Repr

/-- Modelled from the spec: the lending-market operation, whose source file is
not among the two files; it remembers the fork it was built for. -/
structure AaveOperation where
  fork : AaveProtocolFork
  deriving DecidableEq, Repr

/-- Modelled from the spec: the ABI description shared by the forks (§4.2), with
the selectors the spec's concrete scenarios give (§8). -/
def AaveABI : ABI :=
  { Methods :=
      [("withdraw",
        { Name := "withdraw", Inputs := [.AddressTy, .UintTy 256, .AddressTy],
          ID := [0x69, 0x32, 0x8d, 0xec] }),
       ("supply",
        { Name := "supply", Inputs := [.AddressTy, .UintTy 256, .AddressTy, .UintTy 16],
          ID := [0x61, 0x7b, 0xa0, 0x37] })] }

/-- Modelled from the spec: `NewAaveOperation` is not among the two files; it
takes a fork selector and returns an operation for that fork (§4.2). -/
def NewAaveOperation (fork : AaveProtocolFork) : Option AaveOperation × Option GoError :=
  (some { fork := fork }, none)

/-- Modelled from the spec: `Name()` reports the fork the operation was built for (§4.1). -/
def AaveOperation.Name (op : AaveOperation) : ProtocolName :=
  match op.fork with
  | .AaveProtocolForkAave => .AaveV3
  | .AaveProtocolForkSpark => .SparkLend

/-- Modelled from the spec: the validation step of §4.1, the amount is required
and must not be negative (§4.2). -/
def validateAmount (amount : Option Int) : Except GoError Int :=
  match amount with
  | none => .error (.errorsNew "validation: amount is required")
  | some a => if a < 0 then .error (.errorsNew "validation: amount is negative") else .ok a

/-- Modelled from the spec: the hex text of a packed call, or the error of the packer. -/
def packedCall (lib : PackerRelease) (abi : ABI) (name : String) (args : List GoValue) :
    String × Option GoError :=
  match abi.Pack lib name args with
  | .returned (.ok calldata) => (HexPrefix ++ EncodeToString calldata, none)
  | .returned (.error err) => ("", some err)
  | .panicked m => ("", some (.external m))

/-- Modelled from the spec: `GenerateCalldata` of the lending-market operation,
whose source is not among the two files. The table of §4.2 fixes signature and
argument order per action, a referral code that is not set counts as zero, and
every other action is an error. -/
def AaveOperation.GenerateCalldata (lib : PackerRelease) (_op : AaveOperation)
    (action : ContractAction) (opts : GenerateCalldataOptions) : String × Option GoError :=
  match action with
  | .LoanWithdraw =>
    match validateAmount opts.Amount with
    | .error err => ("", some err)
    | .ok amount =>
      packedCall lib AaveABI "withdraw"
        [.address opts.Asset, .bigInt (some amount), .address opts.Sender]
  | .LoanSupply =>
    match validateAmount opts.Amount with
    | .error err => ("", some err)
    | .ok amount =>
      packedCall lib AaveABI "supply"
        [.address opts.Asset, .bigInt (some amount), .address opts.Sender,
         .uint16 (opts.ReferalCode.getD 0)]
  | _ => ("", some (.errorsNew "unsupported action"))

/-! ## The output format and the decoder, in the spec's words -/

/-- The `k` low-order hexadecimal digits of `n`, most significant first, in lower
case: the digit at position `i` from the right is the coefficient of `16^i`. -/
def hexDigits (k n : Nat) : List Char :=
  (List.range k).reverse.map fun i => hexDigit (n / 16 ^ i % 16)

/-- A 32-byte argument word holding the number `n`, left-padded with zeros: 64 digits. -/
def hexWord (n : Nat) : String := String.mk (hexDigits 64 n)

/-- A 32-byte argument word holding an address: twelve zero bytes, then its twenty bytes. -/
def addressWord (a : Address) : String :=
  String.mk (List.replicate 24 '0' ++ hexDigits 40 a.val)

/-- The value of a hexadecimal digit (`fromHexChar` of `encoding/hex`). -/
def fromHexChar (c : Char) : Option Nat :=
  if '0' ≤ c ∧ c ≤ '9' then some (c.toNat - '0'.toNat)
  else if 'a' ≤ c ∧ c ≤ 'f' then some (c.toNat - 'a'.toNat + 10)
  else if 'A' ≤ c ∧ c ≤ 'F' then some (c.toNat - 'A'.toNat + 10)
  else none

/-- The bytes a hexadecimal text spells, two digits per byte; `none` for a text
of odd length or with a character that is not a digit. -/
def decodeHexChars : List Char → Option (List Nat)
  | [] => some []
  | [_] => none
  | hi :: lo :: rest =>
    match fromHexChar hi, fromHexChar lo, decodeHexChars rest with
    | some h, some l, some bs => some ((h * 16 + l) :: bs)
    | _, _, _ => none

/-- The number that bytes spell, most significant first. -/
def bytesToNat (bs : List Nat) : Nat := bs.foldl (fun acc b => acc * 256 + b) 0

/-- The address in a 32-byte word: its last twenty bytes. -/
def wordToAddress (word : List Nat) : Address :=
  ⟨bytesToNat (word.drop 12) % 2 ^ 160, Nat.mod_lt _ (by decide)⟩

/-- The decoder of `transfer(address,uint256)` calldata in the spec's words:
strip the marker `0x`, strip the four bytes of the selector, read two words of
32 bytes, the first as an address and the second as an unsigned integer; `none`
when the text is not of that shape. -/
def decodeTransfer (calldata : String) : Option (List GoValue) :=
  match calldata.data with
  | '0' :: 'x' :: digits =>
    match decodeHexChars digits with
    | none => none
    | some bytes =>
      let body := bytes.drop 4
      if body.length = 64 then
        some [.address (wordToAddress (body.take 32)),
              .bigInt (some (bytesToNat (body.drop 32)))]
      else none
  | _ => none

/-! ## The remaining methods of the Rocket Pool operation -/

/-- The method `GetContractAddress`: it switches on the private field `action`
and does not look at its context argument, whose type is declared outside the file. -/
def RocketPoolOperation.GetContractAddress {Context : Type} (r : RocketPoolOperation)
    (_ctx : Context) : Address × Option GoError :=
  match r.action with
  | .SubmitAction => (r.contract.Address, none)
  | _ => (r.rethContract.Address, none)

/-- The method `Validate`. The helper `IsNativeToken` is declared outside the
file and `Address.Hex` is the checksummed text of go-ethereum, so both are
taken as parameters; `fmt.Errorf` without `%w` is `errors.New` of the message. -/
def RocketPoolOperation.Validate (IsNativeToken : Address → Bool) (Hex : Address → String)
    (_r : RocketPoolOperation) (asset : Address) : Option GoError :=
  if IsNativeToken asset = true then none
  else some (.errorsNew ("unsupported asset for rocket pool staking (" ++ Hex asset ++ ")"))

/-! ## The registry, from the spec -/

/-- Modelled from the spec: the interface value a registry holds, one of the
protocol operations (§4.1); the interface is declared outside the two files. -/
inductive Protocol
  | rocketPool (r : RocketPoolOperation)
  | aave (op : AaveOperation)
  deriving DecidableEq, Repr

/-- Modelled from the spec: the composite key of the registry, the triple of
protocol identifier, action and chain identifier (§4.4). -/
structure RegistryKey where
  protocol : ProtocolName
  action : ContractAction
  chain : Int
  deriving DecidableEq, Repr

set_option linter.dupNamespace false

/-- Modelled from the spec: the registry type is declared outside the two
files; it is a lookup table from keys to operations that holds at most one
operation per key (§3 (b), §4.4). -/
structure ProtocolRegistry where
  protocols : List (RegistryKey × Protocol)
  deriving DecidableEq, Repr

/-- Modelled from the spec: `RegisterProtocolOperation` is not among the two
files; it inserts the entry for the key and replaces one that is there (§4.4). -/
def ProtocolRegistry.RegisterProtocolOperation (registry : ProtocolRegistry)
    (protocol : ProtocolName) (action : ContractAction) (chain : Int)
    (operation : Protocol) : ProtocolRegistry :=
  { protocols :=
      ({ protocol := protocol, action := action, chain := chain }, operation) ::
        registry.protocols.filter fun e =>
          e.1 ≠ { protocol := protocol, action := action, chain := chain } }

/-- Modelled from the spec: `Resolve` is not among the two files; it is a pure
lookup that returns the operation and whether one was found (§4.4). -/
def ProtocolRegistry.Resolve (registry : ProtocolRegistry) (protocol : ProtocolName)
    (action : ContractAction) (chain : Int) : Option Protocol × Bool :=
  match registry.protocols.find? fun e =>
      e.1 = { protocol := protocol, action := action, chain := chain } with
  | some e => (some e.2, true)
  | none => (none, false)

/-- The method `Register`: the operation registers itself under its own
protocol, action and chain. -/
def RocketPoolOperation.Register (r : RocketPoolOperation) (registry : ProtocolRegistry) :
    ProtocolRegistry :=
  registry.RegisterProtocolOperation r.Protocol r.Action r.ChainID (.rocketPool r)

/-! ## The output format, in the spec's words -/

/-- A lowercase hexadecimal digit. -/
def isLowerHexDigit (c : Char) : Bool := ('0' ≤ c && c ≤ '9') || ('a' ≤ c && c ≤ 'f')

/-- The output format of §6 with `words` argument words: the marker `0x`, then
only lowercase hexadecimal digits, eight for the selector and 64 for each word. -/
def hasCalldataFormat (words : Nat) (s : String) : Bool :=
  match s.data with
  | '0' :: 'x' :: digits => digits.all isLowerHexDigit && digits.length == 8 + 64 * words
  | _ => false

/-- The bytes of a Go value of kind array, as far as the values here have them. -/
def GoValue.arrayBytes : GoValue → Option (List Nat)
  | .address a => some a.Bytes
  | .byteArray bs => some (bs.map (· % 256))
  | _ => none

/-! ## Sample operations and chains -/

/-- A network on which every step of the constructor succeeds: the deposit pool
resolves to address 1 and the token to address 2. -/
def sampleNetwork : Network :=
  { Dial := fun _ => none
    NewRocketPool := fun _ _ => none
    GetAddress := fun _ _ name => .ok (some (if name = "rocketDepositPool" then 1 else 2))
    MakeContract := fun _ _ _ addr => .ok { Address := addr } }

/-- A release of the packer with the sign check. -/
def checkingRelease : PackerRelease := { rejectsNegative := true }

/-- A release of the packer without the sign check. -/
def wrappingRelease : PackerRelease := { rejectsNegative := false }

/-- A chain on which the deposit pool accepts at most `cap`. -/
def sampleChain (cap : Nat) : Chain := { Call := fun _ _ => .ok cap }

/-- The operation the constructor builds on the sample network for an action. -/
def sampleOperation (action : ContractAction) : RocketPoolOperation :=
  { Protocol := .RocketPool
    Action := action
    ChainID := 1
    contract := { Address := 1 }
    rethContract := { Address := 2 }
    action := action
    parsedABI := RocketPoolABI }

/-! ## Facts about the embedding -/

theorem RocketPoolABI_deposit :
    RocketPoolABI.method "deposit"
      = some { Name := "deposit", Inputs := [], ID := [0xd0, 0xe3, 0x0d, 0xb0] } := by
  decide

theorem RocketPoolABI_transfer :
    RocketPoolABI.method "transfer"
      = some { Name := "transfer", Inputs := [.AddressTy, .UintTy 256],
               ID := [0xa9, 0x05, 0x9c, 0xbb] } := by
  decide

/-- What the constructor stores in an operation it returns. -/
theorem NewRocketPool_fields {net : Network} {rpcURL contractAddress : String}
    {action : ContractAction} {r : RocketPoolOperation} {e : Option GoError}
    (h : NewRocketPool net rpcURL contractAddress action = (some r, e)) :
    r.Action = action ∧ r.action = action ∧ r.parsedABI = RocketPoolABI
      ∧ r.Protocol = .RocketPool ∧ r.ChainID = 1 ∧ e = none
      ∧ (action = .SubmitAction ∨ action = .WithdrawAction) := by
  unfold NewRocketPool at h
  split at h
  · simp at h
  · rename_i hact
    have hact2 : action = .SubmitAction ∨ action = .WithdrawAction := by
      by_contra hcon
      exact hact ⟨fun h1 => hcon (Or.inl h1), fun h2 => hcon (Or.inr h2)⟩
    repeat (split at h <;> try simp at h)
    obtain ⟨hr, he⟩ := h
    subst hr
    exact ⟨rfl, rfl, rfl, rfl, rfl, he.symm, hact2⟩

theorem sampleNetwork_builds (action : ContractAction)
    (h : action = .SubmitAction ∨ action = .WithdrawAction) :
    NewRocketPool sampleNetwork "rpc" "0xstorage" action = (some (sampleOperation action), none) := by
  rcases h with h | h <;> subst h <;> rfl

/-- The zero-argument deposit call packs to its selector alone. -/
theorem RocketPoolABI_pack_deposit (lib : PackerRelease) :
    RocketPoolABI.Pack lib "deposit" [] = .returned (.ok [0xd0, 0xe3, 0x0d, 0xb0]) := by
  rfl

/-- The text of the deposit call. -/
theorem deposit_calldata_text :
    HexPrefix ++ EncodeToString [0xd0, 0xe3, 0x0d, 0xb0] = "0xd0e30db0" := by
  decide

/-- The deposit path on an argument list that starts with an integer, once the
live cap has been read. -/
theorem deposit_of_amount (lib : PackerRelease) (r : RocketPoolOperation) (chain : Chain)
    (M : Nat) (a : Int)
    (rest : List GoValue) (hABI : r.parsedABI = RocketPoolABI)
    (hcall : chain.Call r.contract "getMaximumDepositAmount" = .ok M) :
    r.deposit lib chain (.bigInt (some a) :: rest)
      = if (M : Int) < a then
          .returned ("", some (.errorsNew
            "rocketpool not accepting this much eth deposit at this time"))
        else .returned ("0xd0e30db0", none) := by
  unfold RocketPoolOperation.deposit
  rw [hABI, RocketPoolABI_deposit]
  simp only [hcall, RocketPoolABI_pack_deposit, deposit_calldata_text]
  by_cases hlt : (M : Int) < a
  · simp [bigCmp, hlt]
  · have : bigCmp (M : Int) a ≠ -1 := by
      unfold bigCmp
      simp only [hlt, if_false]
      split <;> decide
    simp [this, hlt]

/-- Every result of the deposit path that carries no error is the deposit call. -/
theorem deposit_success_text (lib : PackerRelease) (r : RocketPoolOperation) (chain : Chain)
    (args : List GoValue) (s : String) (hABI : r.parsedABI = RocketPoolABI)
    (h : r.deposit lib chain args = .returned (s, none)) : s = "0xd0e30db0" := by
  unfold RocketPoolOperation.deposit at h
  rw [hABI, RocketPoolABI_deposit] at h
  simp only [RocketPoolABI_pack_deposit, deposit_calldata_text] at h
  split at h
  · simp at h
  · split at h
    · simp at h
    · simp at h
    · split at h
      · simp at h
      · simp at h
        exact h.symm
    · simp at h

/-! ### Bytes against digits -/

theorem encodeHexChars_append (xs ys : List Nat) :
    encodeHexChars (xs ++ ys) = encodeHexChars xs ++ encodeHexChars ys := by
  induction xs with
  | nil => rfl
  | cons b bs ih => simp [encodeHexChars, ih]

/-- The digits of a number end in its lowest digit. -/
theorem hexDigits_succ (k n : Nat) :
    hexDigits (k + 1) n = hexDigits k (n / 16) ++ [hexDigit (n % 16)] := by
  unfold hexDigits
  rw [List.range_succ_eq_map, List.reverse_cons, List.map_append, ← List.map_reverse,
    List.map_map]
  congr 1
  · apply List.map_congr_left
    intro i _
    simp only [Function.comp, pow_succ, Nat.div_div_eq_div_mul]
    rw [Nat.mul_comm]
  · simp

/-- Two digits per byte: the hex text of `k` big-endian bytes is the `2k` digits of the number. -/
theorem encodeHexChars_bigEndianBytes (k n : Nat) :
    encodeHexChars (bigEndianBytes k n) = hexDigits (2 * k) n := by
  induction k generalizing n with
  | zero => rfl
  | succ k ih =>
    rw [bigEndianBytes, encodeHexChars_append, ih, show 2 * (k + 1) = (2 * k + 1) + 1 by ring,
      hexDigits_succ, hexDigits_succ, List.append_assoc]
    have h1 : n / 16 / 16 = n / 256 := by rw [Nat.div_div_eq_div_mul]
    have h2 : n % 256 / 16 = n / 16 % 16 := by omega
    have h3 : n % 256 % 16 = n % 16 := by omega
    simp [encodeHexChars, h1, h2, h3]

theorem encodeHexChars_replicate_zero (m : Nat) :
    encodeHexChars (List.replicate m 0) = List.replicate (2 * m) '0' := by
  induction m with
  | zero => rfl
  | succ m ih =>
    rw [List.replicate_succ, encodeHexChars, ih, show 2 * (m + 1) = (2 * m + 1) + 1 by ring,
      List.replicate_succ, List.replicate_succ]
    rfl

theorem bigEndianBytes_length (k n : Nat) : (bigEndianBytes k n).length = k := by
  induction k generalizing n with
  | zero => rfl
  | succ k ih => simp [bigEndianBytes, ih]

theorem bigEndianBytes_lt (k n : Nat) : ∀ b ∈ bigEndianBytes k n, b < 256 := by
  induction k generalizing n with
  | zero => simp [bigEndianBytes]
  | succ k ih =>
    intro b hb
    simp only [bigEndianBytes, List.mem_append, List.mem_singleton] at hb
    rcases hb with hb | hb
    · exact ih _ b hb
    · omega

/-- An address is padded with twelve zero bytes. -/
theorem LeftPadBytes_address (a : Address) :
    LeftPadBytes a.Bytes 32 = List.replicate 12 0 ++ bigEndianBytes 20 a.val := by
  unfold LeftPadBytes Address.Bytes
  rw [bigEndianBytes_length]
  rfl

theorem string_mk_append (xs ys : List Char) :
    String.mk xs ++ String.mk ys = String.mk (xs ++ ys) := rfl

/-- The hex text of a padded address is its argument word. -/
theorem EncodeToString_address (a : Address) :
    EncodeToString (LeftPadBytes a.Bytes 32) = addressWord a := by
  unfold EncodeToString addressWord
  rw [LeftPadBytes_address, encodeHexChars_append, encodeHexChars_replicate_zero,
    encodeHexChars_bigEndianBytes]

/-- The hex text of the 32 bytes of a number is the argument word of its residue. -/
theorem EncodeToString_U256Bytes (a : Int) :
    EncodeToString (U256Bytes a) = hexWord (a % 2 ^ 256).toNat := by
  unfold EncodeToString hexWord U256Bytes
  rw [encodeHexChars_bigEndianBytes]

theorem EncodeToString_append (xs ys : List Nat) :
    EncodeToString (xs ++ ys) = EncodeToString xs ++ EncodeToString ys := by
  unfold EncodeToString
  rw [encodeHexChars_append, string_mk_append]

/-- A number in the range of a word is its own residue. -/
theorem toNat_emod_of_range (a : Int) (h0 : 0 ≤ a) (hlt : a < 2 ^ 256) :
    (a % 2 ^ 256).toNat = a.toNat := by
  rw [Int.emod_eq_of_lt h0 hlt]

/-! ### The decoder against the encoder -/

theorem fromHexChar_hexDigit (n : Nat) (h : n < 16) : fromHexChar (hexDigit n) = some n := by
  interval_cases n <;> rfl

theorem decodeHexChars_encodeHexChars (bs : List Nat) (h : ∀ b ∈ bs, b < 256) :
    decodeHexChars (encodeHexChars bs) = some bs := by
  induction bs with
  | nil => rfl
  | cons b bs ih =>
    have hb : b < 256 := h b (List.mem_cons_self _ _)
    have hrest : ∀ c ∈ bs, c < 256 := fun c hc => h c (List.mem_cons_of_mem _ hc)
    simp only [encodeHexChars, decodeHexChars]
    rw [fromHexChar_hexDigit (b / 16) (by omega), fromHexChar_hexDigit (b % 16) (by omega),
      ih hrest]
    simp only [Option.some.injEq, List.cons.injEq, and_true]
    omega

theorem bytesToNat_append_singleton (xs : List Nat) (b : Nat) :
    bytesToNat (xs ++ [b]) = bytesToNat xs * 256 + b := by
  simp [bytesToNat, List.foldl_append]

/-- Reading back `k` big-endian bytes gives the number modulo `256^k`. -/
theorem bytesToNat_bigEndianBytes (k n : Nat) :
    bytesToNat (bigEndianBytes k n) = n % 256 ^ k := by
  induction k generalizing n with
  | zero => simp [bigEndianBytes, bytesToNat, Nat.mod_one]
  | succ k ih =>
    rw [bigEndianBytes, bytesToNat_append_singleton, ih, pow_succ, Nat.mul_comm (256 ^ k) 256,
      Nat.mod_mul]
    ring

/-! ### The two paths of the Rocket Pool operation -/

/-- What the packer returns for `transfer` on an address and an integer. -/
theorem RocketPoolABI_pack_transfer (lib : PackerRelease) (recipient : Address) (a : Int) :
    RocketPoolABI.Pack lib "transfer" [.address recipient, .bigInt (some a)]
      = if lib.rejectsNegative = true ∧ a < 0 then .returned (.error .invalidSign)
        else .returned (.ok ([0xa9, 0x05, 0x9c, 0xbb] ++
          (LeftPadBytes recipient.Bytes 32 ++ (U256Bytes a ++ [])))) := by
  unfold ABI.Pack
  rw [RocketPoolABI_transfer]
  by_cases h : lib.rejectsNegative = true ∧ a < 0
  · simp [Arguments.Pack, packArgs, packValue, AbiType.kind, GoValue.kind, h]
  · simp [Arguments.Pack, packArgs, packValue, AbiType.kind, GoValue.kind, h]

theorem selector_transfer_text : EncodeToString [0xa9, 0x05, 0x9c, 0xbb] = "a9059cbb" := by
  decide

/-- The withdraw path on an address and an integer: the packer of a release with
the sign check refuses a negative amount, and in every other case the amount is
written modulo `2^256`. -/
theorem withdraw_of_recipient_amount (lib : PackerRelease) (r : RocketPoolOperation)
    (recipient : Address) (a : Int) (hABI : r.parsedABI = RocketPoolABI) :
    r.withdraw lib [.address recipient, .bigInt (some a)]
      = if lib.rejectsNegative = true ∧ a < 0 then
          .returned ("", some (.generateFailed r.Action .invalidSign))
        else .returned ("0x" ++ "a9059cbb" ++ addressWord recipient
          ++ hexWord (a % 2 ^ 256).toNat, none) := by
  unfold RocketPoolOperation.withdraw
  rw [hABI, RocketPoolABI_transfer]
  simp only [RocketPoolABI_pack_transfer]
  by_cases h : lib.rejectsNegative = true ∧ a < 0
  · simp only [h, and_self, if_true]
  · simp only [h, if_false, List.append_nil]
    rw [EncodeToString_append, EncodeToString_append, EncodeToString_address,
      EncodeToString_U256Bytes, selector_transfer_text]
    rfl

/-- An amount that is not negative passes the sign check of every release. -/
theorem not_rejected_of_nonneg (lib : PackerRelease) (a : Int) (h0 : 0 ≤ a) :
    ¬ (lib.rejectsNegative = true ∧ a < 0) := fun h => absurd h.2 (not_lt.mpr h0)

/-- Decoding the text of a transfer call gives back the address and the residue of the amount. -/
theorem decodeTransfer_of_text (recipient : Address) (n : Nat) (hn : n < 2 ^ 256) :
    decodeTransfer ("0x" ++ "a9059cbb" ++ addressWord recipient ++ hexWord n)
      = some [.address recipient, .bigInt (some (n : Int))] := by
  have htext : "0x" ++ "a9059cbb" ++ addressWord recipient ++ hexWord n
      = String.mk ('0' :: 'x' :: encodeHexChars ([0xa9, 0x05, 0x9c, 0xbb] ++
          (List.replicate 12 0 ++ bigEndianBytes 20 recipient.val) ++ bigEndianBytes 32 n)) := by
    rw [encodeHexChars_append, encodeHexChars_append, encodeHexChars_append,
      encodeHexChars_replicate_zero, encodeHexChars_bigEndianBytes,
      encodeHexChars_bigEndianBytes]
    rfl
  have hbytes : ∀ b ∈ [0xa9, 0x05, 0x9c, 0xbb] ++
      (List.replicate 12 0 ++ bigEndianBytes 20 recipient.val) ++ bigEndianBytes 32 n,
      b < 256 := by
    intro b hb
    simp only [List.mem_append, List.mem_cons, List.mem_singleton, List.mem_replicate] at hb
    rcases hb with (hb | hb | hb) | hb
    · rcases hb with hb | hb | hb | hb | hb
      · omega
      · omega
      · omega
      · omega
      · simp at hb
    · omega
    · exact bigEndianBytes_lt _ _ b hb
    · exact bigEndianBytes_lt _ _ b hb
  rw [htext]
  unfold decodeTransfer
  simp only [decodeHexChars_encodeHexChars _ hbytes]
  have hdrop : ([0xa9, 0x05, 0x9c, 0xbb] ++
      (List.replicate 12 0 ++ bigEndianBytes 20 recipient.val) ++ bigEndianBytes 32 n).drop 4
      = (List.replicate 12 0 ++ bigEndianBytes 20 recipient.val) ++ bigEndianBytes 32 n := by
    rfl
  have hlen : ((List.replicate 12 0 ++ bigEndianBytes 20 recipient.val)
      ++ bigEndianBytes 32 n).length = 64 := by
    simp [bigEndianBytes_length]
  have htake : ((List.replicate 12 0 ++ bigEndianBytes 20 recipient.val)
      ++ bigEndianBytes 32 n).take 32
      = List.replicate 12 0 ++ bigEndianBytes 20 recipient.val := by
    rw [List.take_append_of_le_length (by simp [bigEndianBytes_length])]
    exact List.take_of_length_le (by simp [bigEndianBytes_length])
  have hdrop2 : ((List.replicate 12 0 ++ bigEndianBytes 20 recipient.val)
      ++ bigEndianBytes 32 n).drop 32 = bigEndianBytes 32 n := by
    exact List.drop_left' (by simp [bigEndianBytes_length])
  have hdrop3 : (List.replicate 12 0 ++ bigEndianBytes 20 recipient.val).drop 12
      = bigEndianBytes 20 recipient.val := by
    exact List.drop_left' (by simp)
  have haddr : wordToAddress (List.replicate 12 0 ++ bigEndianBytes 20 recipient.val)
      = recipient := by
    apply Fin.ext
    unfold wordToAddress
    simp only [hdrop3, bytesToNat_bigEndianBytes]
    have h1 : recipient.val < 2 ^ 160 := recipient.isLt
    have h2 : (256 : Nat) ^ 20 = 2 ^ 160 := by norm_num
    rw [h2, Nat.mod_mod, Nat.mod_eq_of_lt h1]
  have hamount : bytesToNat (bigEndianBytes 32 n) = n := by
    rw [bytesToNat_bigEndianBytes]
    have h2 : (256 : Nat) ^ 32 = 2 ^ 256 := by norm_num
    rw [h2, Nat.mod_eq_of_lt hn]
  simp only [hdrop, hlen, htake, hdrop2, haddr, hamount, if_true]

/-! ### The lending-market operation -/

theorem validateAmount_of_nonneg (a : Int) (h0 : 0 ≤ a) : validateAmount (some a) = .ok a := by
  simp [validateAmount, not_lt.mpr h0]

theorem AaveABI_pack_withdraw (lib : PackerRelease) (asset recipient : Address) (a : Int)
    (h0 : 0 ≤ a) :
    AaveABI.Pack lib "withdraw" [.address asset, .bigInt (some a), .address recipient]
      = .returned (.ok ([0x69, 0x32, 0x8d, 0xec] ++
          (LeftPadBytes asset.Bytes 32 ++ (U256Bytes a ++
            (LeftPadBytes recipient.Bytes 32 ++ []))))) := by
  have hmethod : AaveABI.method "withdraw"
      = some { Name := "withdraw", Inputs := [.AddressTy, .UintTy 256, .AddressTy],
               ID := [0x69, 0x32, 0x8d, 0xec] } := by decide
  unfold ABI.Pack
  rw [hmethod]
  simp [Arguments.Pack, packArgs, packValue, AbiType.kind, GoValue.kind, not_lt.mpr h0]

theorem AaveABI_pack_supply (lib : PackerRelease) (asset sender : Address) (a : Int)
    (c : Nat) (h0 : 0 ≤ a) :
    AaveABI.Pack lib "supply" [.address asset, .bigInt (some a), .address sender, .uint16 c]
      = .returned (.ok ([0x61, 0x7b, 0xa0, 0x37] ++
          (LeftPadBytes asset.Bytes 32 ++ (U256Bytes a ++
            (LeftPadBytes sender.Bytes 32 ++ (U256Bytes (c % 2 ^ 16 : Nat) ++ [])))))) := by
  have hmethod : AaveABI.method "supply"
      = some { Name := "supply", Inputs := [.AddressTy, .UintTy 256, .AddressTy, .UintTy 16],
               ID := [0x61, 0x7b, 0xa0, 0x37] } := by decide
  unfold ABI.Pack
  rw [hmethod]
  simp [Arguments.Pack, packArgs, packValue, AbiType.kind, GoValue.kind, not_lt.mpr h0]

theorem selector_withdraw_text : EncodeToString [0x69, 0x32, 0x8d, 0xec] = "69328dec" := by
  decide

theorem selector_supply_text : EncodeToString [0x61, 0x7b, 0xa0, 0x37] = "617ba037" := by
  decide

theorem string_append_assoc (a b c : String) : a ++ b ++ c = a ++ (b ++ c) := by
  apply String.ext
  simp [String.data_append, List.append_assoc]

/-- The residue of a 16-bit number written into a word is the number. -/
theorem toNat_uint16_word (c : Nat) (hc : c < 2 ^ 16) :
    (((c % 2 ^ 16 : Nat) : Int) % 2 ^ 256).toNat = c := by
  rw [Nat.mod_eq_of_lt hc]
  have h1 : ((c : Nat) : Int) < 2 ^ 256 := by
    have : (c : Int) < 2 ^ 16 := by exact_mod_cast hc
    have : (2 : Int) ^ 16 < 2 ^ 256 := by norm_num
    omega
  rw [Int.emod_eq_of_lt (Int.natCast_nonneg c) h1]
  exact Int.toNat_natCast c

set_option maxRecDepth 100000

/-! ## The claims -/

/-- C1: on an operation built for the deposit action, with the live maximum `M`
read from the deposit pool and an integer `a` in `args[0]`, `GenerateCalldata`
returns without error exactly when `a ≤ M`; at `a = M` it returns the deposit
calldata, at `a = M + 1` it returns the capacity error and the empty string. -/
theorem C1_deposit_succeeds_iff_within_cap (lib : PackerRelease) (net : Network) (rpcURL contractAddress : String)
    (r : RocketPoolOperation) (chain : Chain) {AssetKind : Type} (kind : AssetKind)
    (M : Nat) (a : Int) (rest : List GoValue)
    (hnew : NewRocketPool net rpcURL contractAddress .SubmitAction = (some r, none))
    (hcall : chain.Call r.contract "getMaximumDepositAmount" = .ok M) :
    ((∃ s, r.GenerateCalldata lib chain kind (.bigInt (some a) :: rest) = .returned (s, none)) ↔ a ≤ M)
    ∧ r.GenerateCalldata lib chain kind (.bigInt (some (M : Int)) :: rest)
        = .returned ("0xd0e30db0", none)
    ∧ r.GenerateCalldata lib chain kind (.bigInt (some ((M : Int) + 1)) :: rest)
        = .returned ("", some (.errorsNew
            "rocketpool not accepting this much eth deposit at this time")) := by
  obtain ⟨hA, -, hABI, -⟩ := NewRocketPool_fields hnew
  have hgen : ∀ args, r.GenerateCalldata lib chain kind args = r.deposit lib chain args := by
    intro args
    unfold RocketPoolOperation.GenerateCalldata
    rw [hA]
  simp only [hgen, deposit_of_amount lib r chain M _ rest hABI hcall]
  refine ⟨?_, ?_, ?_⟩
  · by_cases hlt : (M : Int) < a
    · simp only [hlt, if_true]
      constructor
      · rintro ⟨s, hs⟩
        simp at hs
      · intro hle
        omega
    · simp only [hlt, if_false]
      constructor
      · intro _
        omega
      · intro _
        exact ⟨_, rfl⟩
  · simp
  · simp

/-- The witness of C1: the sample operation under a cap of five, asked for five. -/
theorem C1_deposit_succeeds_iff_within_cap_witness :
    (NewRocketPool sampleNetwork "rpc" "0xstorage" .SubmitAction
        = (some (sampleOperation .SubmitAction), none)
      ∧ (sampleChain 5).Call (sampleOperation .SubmitAction).contract
          "getMaximumDepositAmount" = .ok 5)
    ∧ (((∃ s, (sampleOperation .SubmitAction).GenerateCalldata checkingRelease (sampleChain 5) ()
        [.bigInt (some 5)] = .returned (s, none)) ↔ (5 : Int) ≤ (5 : Nat))
      ∧ (sampleOperation .SubmitAction).GenerateCalldata checkingRelease (sampleChain 5) ()
          [.bigInt (some ((5 : Nat) : Int))] = .returned ("0xd0e30db0", none)
      ∧ (sampleOperation .SubmitAction).GenerateCalldata checkingRelease (sampleChain 5) ()
          [.bigInt (some (((5 : Nat) : Int) + 1))]
          = .returned ("", some (.errorsNew
              "rocketpool not accepting this much eth deposit at this time"))) :=
  ⟨⟨sampleNetwork_builds .SubmitAction (Or.inl rfl), rfl⟩,
   C1_deposit_succeeds_iff_within_cap checkingRelease sampleNetwork "rpc" "0xstorage"
    (sampleOperation .SubmitAction) (sampleChain 5) () 5 5 []
    (sampleNetwork_builds .SubmitAction (Or.inl rfl)) rfl⟩

/-- C2: on an operation built for the withdraw action, for every recipient and
every amount `a` with `0 ≤ a < 2^256`, `GenerateCalldata` on `(recipient, a)`
returns without error the text `0x`, the selector `a9059cbb`, the recipient
left-padded to 32 bytes and the amount as a 32-byte big-endian word; the result
is the same on every chain. -/
theorem C2_withdraw_encodes_transfer (lib : PackerRelease) (net : Network) (rpcURL contractAddress : String)
    (r : RocketPoolOperation) (chain chain2 : Chain) {AssetKind : Type} (kind : AssetKind)
    (recipient : Address) (a : Int)
    (hnew : NewRocketPool net rpcURL contractAddress .WithdrawAction = (some r, none))
    (h0 : 0 ≤ a) (hlt : a < 2 ^ 256) :
    r.GenerateCalldata lib chain kind [.address recipient, .bigInt (some a)]
      = .returned ("0x" ++ "a9059cbb" ++ addressWord recipient ++ hexWord a.toNat, none)
    ∧ r.GenerateCalldata lib chain2 kind [.address recipient, .bigInt (some a)]
      = r.GenerateCalldata lib chain kind [.address recipient, .bigInt (some a)] := by
  obtain ⟨hA, -, hABI, -⟩ := NewRocketPool_fields hnew
  have hgen : ∀ (c : Chain) args, r.GenerateCalldata lib c kind args = r.withdraw lib args := by
    intro c args
    unfold RocketPoolOperation.GenerateCalldata
    rw [hA]
  rw [hgen, hgen, withdraw_of_recipient_amount lib r recipient a hABI,
    if_neg (not_rejected_of_nonneg lib a h0), toNat_emod_of_range a h0 hlt]
  exact ⟨rfl, rfl⟩

/-- The witness of C2: the sample operation, recipient `0x…01`, amount 5·10^17. -/
theorem C2_withdraw_encodes_transfer_witness :
    (NewRocketPool sampleNetwork "rpc" "0xstorage" .WithdrawAction
        = (some (sampleOperation .WithdrawAction), none)
      ∧ (0 : Int) ≤ 500000000000000000 ∧ (500000000000000000 : Int) < 2 ^ 256)
    ∧ ((sampleOperation .WithdrawAction).GenerateCalldata checkingRelease (sampleChain 0) ()
          [.address 1, .bigInt (some 500000000000000000)]
        = .returned ("0x" ++ "a9059cbb" ++ addressWord 1
            ++ hexWord (500000000000000000 : Int).toNat, none)
      ∧ (sampleOperation .WithdrawAction).GenerateCalldata checkingRelease (sampleChain 9) ()
          [.address 1, .bigInt (some 500000000000000000)]
        = (sampleOperation .WithdrawAction).GenerateCalldata checkingRelease (sampleChain 0) ()
          [.address 1, .bigInt (some 500000000000000000)]) :=
  ⟨⟨sampleNetwork_builds .WithdrawAction (Or.inr rfl), by decide, by decide⟩,
   C2_withdraw_encodes_transfer checkingRelease sampleNetwork "rpc" "0xstorage"
    (sampleOperation .WithdrawAction) (sampleChain 0) (sampleChain 9) () 1
    500000000000000000
    (sampleNetwork_builds .WithdrawAction (Or.inr rfl)) (by decide) (by decide)⟩

/-- C3: on an operation built for the deposit action, every call of
`GenerateCalldata` that returns without error returns the text `0xd0e30db0`,
the selector of `deposit()` and no argument word, whatever the arguments and
the live cap. -/
theorem C3_deposit_calldata_is_selector_only (lib : PackerRelease) (net : Network)
    (rpcURL contractAddress : String) (r : RocketPoolOperation) (chain : Chain)
    {AssetKind : Type} (kind : AssetKind) (args : List GoValue) (s : String)
    (hnew : NewRocketPool net rpcURL contractAddress .SubmitAction = (some r, none))
    (hok : r.GenerateCalldata lib chain kind args = .returned (s, none)) :
    s = "0xd0e30db0" := by
  obtain ⟨hA, -, hABI, -⟩ := NewRocketPool_fields hnew
  unfold RocketPoolOperation.GenerateCalldata at hok
  rw [hA] at hok
  exact deposit_success_text lib r chain args s hABI hok

/-- The witness of C3: the sample operation under a cap of seven, asked for three. -/
theorem C3_deposit_calldata_is_selector_only_witness :
    (NewRocketPool sampleNetwork "rpc" "0xstorage" .SubmitAction
        = (some (sampleOperation .SubmitAction), none)
      ∧ (sampleOperation .SubmitAction).GenerateCalldata checkingRelease (sampleChain 7) ()
          [.bigInt (some 3)] = .returned ("0xd0e30db0", none))
    ∧ "0xd0e30db0" = "0xd0e30db0" :=
  ⟨⟨sampleNetwork_builds .SubmitAction (Or.inl rfl), by decide⟩,
   C3_deposit_calldata_is_selector_only checkingRelease sampleNetwork "rpc" "0xstorage"
    (sampleOperation .SubmitAction) (sampleChain 7) () [.bigInt (some 3)] "0xd0e30db0"
    (sampleNetwork_builds .SubmitAction (Or.inl rfl)) (by decide)⟩

/-- C4, as stated, fails: the operation the constructor returns for the withdraw
action accepts the amount `2^256` under either release of the packer, its word
is written modulo `2^256`, and decoding the returned calldata gives the amount
0, not the original argument list. -/
theorem C4_roundtrip_counterexample :
    NewRocketPool sampleNetwork "rpc" "0xstorage" .WithdrawAction
      = (some (sampleOperation .WithdrawAction), none)
    ∧ (sampleOperation .WithdrawAction).GenerateCalldata checkingRelease (sampleChain 0) ()
        [.address 1, .bigInt (some (2 ^ 256))]
      = .returned ("0xa9059cbb0000000000000000000000000000000000000000000000000000000000000001"
          ++ "0000000000000000000000000000000000000000000000000000000000000000", none)
    ∧ (sampleOperation .WithdrawAction).GenerateCalldata wrappingRelease (sampleChain 0) ()
        [.address 1, .bigInt (some (2 ^ 256))]
      = .returned ("0xa9059cbb0000000000000000000000000000000000000000000000000000000000000001"
          ++ "0000000000000000000000000000000000000000000000000000000000000000", none)
    ∧ decodeTransfer ("0xa9059cbb0000000000000000000000000000000000000000000000000000000000000001"
          ++ "0000000000000000000000000000000000000000000000000000000000000000")
      = some [.address 1, .bigInt (some 0)]
    ∧ decodeTransfer ("0xa9059cbb0000000000000000000000000000000000000000000000000000000000000001"
          ++ "0000000000000000000000000000000000000000000000000000000000000000")
      ≠ some [.address 1, .bigInt (some (2 ^ 256))] := by
  have hdec : decodeTransfer
      ("0xa9059cbb0000000000000000000000000000000000000000000000000000000000000001"
        ++ "0000000000000000000000000000000000000000000000000000000000000000")
      = some [.address 1, .bigInt (some 0)] := by rfl
  refine ⟨sampleNetwork_builds .WithdrawAction (Or.inr rfl), by rfl, by rfl, hdec, ?_⟩
  rw [hdec]
  decide

/-- C4, amended: on an operation built for the withdraw action, for every
recipient and every amount `a` with `0 ≤ a < 2^256`, `GenerateCalldata` returns
calldata without error, and decoding it (strip `0x`, strip the selector, read
two words) gives back the argument list `(recipient, a)`. -/
theorem C4_roundtrip_in_range (lib : PackerRelease) (net : Network) (rpcURL contractAddress : String)
    (r : RocketPoolOperation) (chain : Chain) {AssetKind : Type} (kind : AssetKind)
    (recipient : Address) (a : Int)
    (hnew : NewRocketPool net rpcURL contractAddress .WithdrawAction = (some r, none))
    (h0 : 0 ≤ a) (hlt : a < 2 ^ 256) :
    ∃ calldata, r.GenerateCalldata lib chain kind [.address recipient, .bigInt (some a)]
        = .returned (calldata, none)
      ∧ decodeTransfer calldata = some [.address recipient, .bigInt (some a)] := by
  obtain ⟨hA, -, hABI, -⟩ := NewRocketPool_fields hnew
  refine ⟨"0x" ++ "a9059cbb" ++ addressWord recipient ++ hexWord a.toNat, ?_, ?_⟩
  · unfold RocketPoolOperation.GenerateCalldata
    rw [hA]
    simp only []
    rw [withdraw_of_recipient_amount lib r recipient a hABI,
      if_neg (not_rejected_of_nonneg lib a h0), toNat_emod_of_range a h0 hlt]
  · have hn : a.toNat < 2 ^ 256 := by
      have : (a.toNat : Int) = a := Int.toNat_of_nonneg h0
      have h2 : (a.toNat : Int) < ((2 ^ 256 : Nat) : Int) := by
        rw [this]
        exact_mod_cast hlt
      exact_mod_cast h2
    rw [decodeTransfer_of_text recipient a.toNat hn, Int.toNat_of_nonneg h0]

/-- The witness of C4 as amended: the sample operation, recipient `0x…02`, amount 7. -/
theorem C4_roundtrip_in_range_witness :
    (NewRocketPool sampleNetwork "rpc" "0xstorage" .WithdrawAction
        = (some (sampleOperation .WithdrawAction), none)
      ∧ (0 : Int) ≤ 7 ∧ (7 : Int) < 2 ^ 256)
    ∧ ∃ calldata, (sampleOperation .WithdrawAction).GenerateCalldata checkingRelease (sampleChain 0) ()
          [.address 2, .bigInt (some 7)] = .returned (calldata, none)
        ∧ decodeTransfer calldata = some [.address 2, .bigInt (some 7)] :=
  ⟨⟨sampleNetwork_builds .WithdrawAction (Or.inr rfl), by decide, by decide⟩,
   C4_roundtrip_in_range checkingRelease sampleNetwork "rpc" "0xstorage"
    (sampleOperation .WithdrawAction) (sampleChain 0) () 2 7
    (sampleNetwork_builds .WithdrawAction (Or.inr rfl)) (by decide) (by decide)⟩

/-- C5: an action outside the supported set is an error with no calldata. An
operation whose action is neither `SubmitAction` nor `WithdrawAction` returns the
empty string and the error `unsupported action` for every argument list and
chain; the lending-market operation of either fork returns the empty string and
an error for every action that is neither `LoanSupply` nor `LoanWithdraw`, and
so for `NativeStake`. -/
theorem C5_unsupported_action_is_error (lib : PackerRelease) (r : RocketPoolOperation) (chain : Chain)
    {AssetKind : Type} (kind : AssetKind) (args : List GoValue) (fork : AaveProtocolFork)
    (action : ContractAction) (opts : GenerateCalldataOptions)
    (hsubmit : r.Action ≠ .SubmitAction) (hwithdraw : r.Action ≠ .WithdrawAction)
    (hsupply : action ≠ .LoanSupply) (hloan : action ≠ .LoanWithdraw) :
    r.GenerateCalldata lib chain kind args = .returned ("", some (.errorsNew "unsupported action"))
    ∧ ∃ aave, NewAaveOperation fork = (some aave, none)
        ∧ aave.GenerateCalldata lib action opts = ("", some (.errorsNew "unsupported action"))
        ∧ aave.GenerateCalldata lib .NativeStake opts
            = ("", some (.errorsNew "unsupported action")) := by
  refine ⟨?_, { fork := fork }, rfl, ?_, rfl⟩
  · unfold RocketPoolOperation.GenerateCalldata
    split
    · rename_i h
      exact absurd h hsubmit
    · rename_i h
      exact absurd h hwithdraw
    · rfl
  · unfold AaveOperation.GenerateCalldata
    split
    · exact absurd rfl hloan
    · exact absurd rfl hsupply
    · rfl

/-- The witness of C5: a Rocket Pool operation holding `NativeStake`, and the
lending-market operation asked for `NativeStake` with the sender of the test. -/
theorem C5_unsupported_action_is_error_witness :
    ((sampleOperation .NativeStake).Action ≠ .SubmitAction
      ∧ (sampleOperation .NativeStake).Action ≠ .WithdrawAction
      ∧ ContractAction.NativeStake ≠ .LoanSupply
      ∧ ContractAction.NativeStake ≠ .LoanWithdraw)
    ∧ ((sampleOperation .NativeStake).GenerateCalldata checkingRelease (sampleChain 0) () []
          = .returned ("", some (.errorsNew "unsupported action"))
      ∧ ∃ aave, NewAaveOperation .AaveProtocolForkAave = (some aave, none)
        ∧ aave.GenerateCalldata checkingRelease .NativeStake
            { Asset := 0, Amount := none,
              Sender := 0xB4FBF271143F4FBf7B91A5ded31805e42b2208d6, ReferalCode := none }
          = ("", some (.errorsNew "unsupported action"))
        ∧ aave.GenerateCalldata checkingRelease .NativeStake
            { Asset := 0, Amount := none,
              Sender := 0xB4FBF271143F4FBf7B91A5ded31805e42b2208d6, ReferalCode := none }
          = ("", some (.errorsNew "unsupported action"))) :=
  ⟨⟨by decide, by decide, by decide, by decide⟩,
   C5_unsupported_action_is_error checkingRelease (sampleOperation .NativeStake) (sampleChain 0) () []
    .AaveProtocolForkAave .NativeStake
    { Asset := 0, Amount := none,
      Sender := 0xB4FBF271143F4FBf7B91A5ded31805e42b2208d6, ReferalCode := none }
    (by decide) (by decide) (by decide) (by decide)⟩

/-- C6: for an action other than `SubmitAction` and `WithdrawAction` the
constructor returns no operation and the error `unsupported action`, for
every endpoint, every storage address and every behaviour of the network. -/
theorem C6_constructor_rejects_unsupported_action (net : Network)
    (rpcURL contractAddress : String) (action : ContractAction)
    (hsubmit : action ≠ .SubmitAction) (hwithdraw : action ≠ .WithdrawAction) :
    NewRocketPool net rpcURL contractAddress action
      = (none, some (.errorsNew "unsupported action")) := by
  unfold NewRocketPool
  rw [if_pos ⟨hsubmit, hwithdraw⟩]

/-- The witness of C6: `LoanSupply` on the sample network, where every network
step would succeed. -/
theorem C6_constructor_rejects_unsupported_action_witness :
    (ContractAction.LoanSupply ≠ .SubmitAction ∧ ContractAction.LoanSupply ≠ .WithdrawAction)
    ∧ NewRocketPool sampleNetwork "rpc" "0xstorage" .LoanSupply
        = (none, some (.errorsNew "unsupported action")) :=
  ⟨⟨by decide, by decide⟩,
   C6_constructor_rejects_unsupported_action sampleNetwork "rpc" "0xstorage" .LoanSupply
    (by decide) (by decide)⟩

/-- C7: for every fork, asset, recipient (the `Sender` option) and amount `a`
with `0 ≤ a < 2^256`, the operation built by `NewAaveOperation` returns for
`LoanWithdraw`, without error, `0x69328dec` followed by the words of the asset,
the amount and the recipient, in that order; on the inputs of the test it
returns the string the test expects. -/
theorem C7_aave_withdraw_encoding (lib : PackerRelease) (fork : AaveProtocolFork) (asset recipient : Address)
    (a : Int) (referral : Option Nat) (h0 : 0 ≤ a) (hlt : a < 2 ^ 256) :
    (∃ aave, NewAaveOperation fork = (some aave, none)
      ∧ aave.GenerateCalldata lib .LoanWithdraw
          { Asset := asset, Amount := some a, Sender := recipient, ReferalCode := referral }
        = ("0x69328dec" ++ addressWord asset ++ hexWord a.toNat ++ addressWord recipient,
           none))
    ∧ ∃ aave, NewAaveOperation .AaveProtocolForkAave = (some aave, none)
      ∧ aave.GenerateCalldata lib .LoanWithdraw
          { Asset := 0xc0ffee254729296a45a3885639AC7E10F9d54979,
            Amount := some 500000000000000000, Sender := 0, ReferalCode := none }
        = ("0x69328dec000000000000000000000000c0ffee254729296a45a3885639ac7e10f9d54979"
            ++ "00000000000000000000000000000000000000000000000006f05b59d3b20000"
            ++ "0000000000000000000000000000000000000000000000000000000000000000", none) := by
  refine ⟨⟨{ fork := fork }, rfl, ?_⟩,
    ⟨{ fork := .AaveProtocolForkAave }, rfl, by rcases lib with ⟨_ | _⟩ <;> rfl⟩⟩
  unfold AaveOperation.GenerateCalldata
  simp only [validateAmount_of_nonneg a h0]
  unfold packedCall
  simp only [AaveABI_pack_withdraw lib asset recipient a h0, List.append_nil]
  rw [EncodeToString_append, EncodeToString_append, EncodeToString_append,
    EncodeToString_address, EncodeToString_address, EncodeToString_U256Bytes,
    selector_withdraw_text, toNat_emod_of_range a h0 hlt]
  have htext : HexPrefix ++ ("69328dec" ++ (addressWord asset ++ (hexWord a.toNat
      ++ addressWord recipient)))
      = "0x69328dec" ++ addressWord asset ++ hexWord a.toNat ++ addressWord recipient := by
    rw [string_append_assoc, string_append_assoc]
    rfl
  rw [htext]

/-- The witness of C7: asset `0x…07`, amount 3, recipient `0x…09`, on the Spark fork. -/
theorem C7_aave_withdraw_encoding_witness :
    ((0 : Int) ≤ 3 ∧ (3 : Int) < 2 ^ 256)
    ∧ ((∃ aave, NewAaveOperation .AaveProtocolForkSpark = (some aave, none)
        ∧ aave.GenerateCalldata checkingRelease .LoanWithdraw
            { Asset := 7, Amount := some 3, Sender := 9, ReferalCode := none }
          = ("0x69328dec" ++ addressWord 7 ++ hexWord (3 : Int).toNat ++ addressWord 9, none))
      ∧ ∃ aave, NewAaveOperation .AaveProtocolForkAave = (some aave, none)
        ∧ aave.GenerateCalldata checkingRelease .LoanWithdraw
            { Asset := 0xc0ffee254729296a45a3885639AC7E10F9d54979,
              Amount := some 500000000000000000, Sender := 0, ReferalCode := none }
          = ("0x69328dec000000000000000000000000c0ffee254729296a45a3885639ac7e10f9d54979"
              ++ "00000000000000000000000000000000000000000000000006f05b59d3b20000"
              ++ "0000000000000000000000000000000000000000000000000000000000000000", none)) :=
  ⟨⟨by decide, by decide⟩,
   C7_aave_withdraw_encoding checkingRelease .AaveProtocolForkSpark 7 9 3 none (by decide) (by decide)⟩

/-- C8: for every fork, asset, sender, amount `a` with `0 ≤ a < 2^256` and
referral code below `2^16` or unset, the operation built by `NewAaveOperation`
returns for `LoanSupply`, without error, `0x617ba037` followed by the words of
the asset, the amount, the sender and the referral code, in that order, the
last word being zero when the code is unset; on the inputs of the test it
returns the string the test expects, which ends in `0a`. -/
theorem C8_aave_supply_encoding (lib : PackerRelease) (fork : AaveProtocolFork) (asset sender : Address)
    (a : Int) (referral : Option Nat) (h0 : 0 ≤ a) (hlt : a < 2 ^ 256)
    (hcode : ∀ c, referral = some c → c < 2 ^ 16) :
    (∃ aave, NewAaveOperation fork = (some aave, none)
      ∧ aave.GenerateCalldata lib .LoanSupply
          { Asset := asset, Amount := some a, Sender := sender, ReferalCode := referral }
        = ("0x617ba037" ++ addressWord asset ++ hexWord a.toNat ++ addressWord sender
            ++ hexWord (referral.getD 0), none)
      ∧ aave.GenerateCalldata lib .LoanSupply
          { Asset := asset, Amount := some a, Sender := sender, ReferalCode := none }
        = ("0x617ba037" ++ addressWord asset ++ hexWord a.toNat ++ addressWord sender
            ++ hexWord 0, none))
    ∧ ∃ aave, NewAaveOperation .AaveProtocolForkAave = (some aave, none)
      ∧ aave.GenerateCalldata lib .LoanSupply
          { Asset := 0x1f9840a85d5aF5bf1D1762F925BDADdC4201F984,
            Amount := some 1000000000000000000, Sender := 0, ReferalCode := some 10 }
        = ("0x617ba0370000000000000000000000001f9840a85d5af5bf1d1762f925bdaddc4201f984"
            ++ "0000000000000000000000000000000000000000000000000de0b6b3a7640000"
            ++ "0000000000000000000000000000000000000000000000000000000000000000"
            ++ "000000000000000000000000000000000000000000000000000000000000000a", none) := by
  have hgen : ∀ (code : Option Nat), (∀ c, code = some c → c < 2 ^ 16) →
      AaveOperation.GenerateCalldata lib { fork := fork } .LoanSupply
          { Asset := asset, Amount := some a, Sender := sender, ReferalCode := code }
        = ("0x617ba037" ++ addressWord asset ++ hexWord a.toNat ++ addressWord sender
            ++ hexWord (code.getD 0), none) := by
    intro code hc
    have hlt16 : code.getD 0 < 2 ^ 16 := by
      cases code with
      | none => simp
      | some c => exact hc c rfl
    unfold AaveOperation.GenerateCalldata
    simp only [validateAmount_of_nonneg a h0]
    unfold packedCall
    simp only [AaveABI_pack_supply lib asset sender a _ h0, List.append_nil]
    rw [EncodeToString_append, EncodeToString_append, EncodeToString_append,
      EncodeToString_append, EncodeToString_address, EncodeToString_address,
      EncodeToString_U256Bytes, EncodeToString_U256Bytes, selector_supply_text,
      toNat_emod_of_range a h0 hlt, toNat_uint16_word _ hlt16]
    have htext : HexPrefix ++ ("617ba037" ++ (addressWord asset ++ (hexWord a.toNat
        ++ (addressWord sender ++ hexWord (code.getD 0)))))
        = "0x617ba037" ++ addressWord asset ++ hexWord a.toNat ++ addressWord sender
          ++ hexWord (code.getD 0) := by
      rw [string_append_assoc, string_append_assoc, string_append_assoc]
      rfl
    rw [htext]
  refine ⟨⟨{ fork := fork }, rfl, hgen referral hcode, ?_⟩,
    ⟨{ fork := .AaveProtocolForkAave }, rfl, by rcases lib with ⟨_ | _⟩ <;> rfl⟩⟩
  exact hgen none (by simp)

/-- The witness of C8: asset `0x…07`, amount 3, sender `0x…09`, referral code 10. -/
theorem C8_aave_supply_encoding_witness :
    ((0 : Int) ≤ 3 ∧ (3 : Int) < 2 ^ 256 ∧ ∀ c, some 10 = some c → c < 2 ^ 16)
    ∧ ((∃ aave, NewAaveOperation .AaveProtocolForkSpark = (some aave, none)
        ∧ aave.GenerateCalldata checkingRelease .LoanSupply
            { Asset := 7, Amount := some 3, Sender := 9, ReferalCode := some 10 }
          = ("0x617ba037" ++ addressWord 7 ++ hexWord (3 : Int).toNat ++ addressWord 9
              ++ hexWord ((some 10 : Option Nat).getD 0), none)
        ∧ aave.GenerateCalldata checkingRelease .LoanSupply
            { Asset := 7, Amount := some 3, Sender := 9, ReferalCode := none }
          = ("0x617ba037" ++ addressWord 7 ++ hexWord (3 : Int).toNat ++ addressWord 9
              ++ hexWord 0, none))
      ∧ ∃ aave, NewAaveOperation .AaveProtocolForkAave = (some aave, none)
        ∧ aave.GenerateCalldata checkingRelease .LoanSupply
            { Asset := 0x1f9840a85d5aF5bf1D1762F925BDADdC4201F984,
              Amount := some 1000000000000000000, Sender := 0, ReferalCode := some 10 }
          = ("0x617ba0370000000000000000000000001f9840a85d5af5bf1d1762f925bdaddc4201f984"
              ++ "0000000000000000000000000000000000000000000000000de0b6b3a7640000"
              ++ "0000000000000000000000000000000000000000000000000000000000000000"
              ++ "000000000000000000000000000000000000000000000000000000000000000a", none)) :=
  ⟨⟨by decide, by decide, fun c hc => by cases hc; decide⟩,
   C8_aave_supply_encoding checkingRelease .AaveProtocolForkSpark 7 9 3 (some 10) (by decide) (by decide)
    (fun c hc => by cases hc; decide)⟩

/-- C9, as stated, fails: the operation the constructor returns for the deposit
action does not reject the amount −1; under a cap of five it returns the deposit
calldata without error, under either release of the packer. -/
theorem C9_negative_amount_counterexample :
    NewRocketPool sampleNetwork "rpc" "0xstorage" .SubmitAction
      = (some (sampleOperation .SubmitAction), none)
    ∧ (sampleOperation .SubmitAction).GenerateCalldata checkingRelease (sampleChain 5) ()
        [.bigInt (some (-1))] = .returned ("0xd0e30db0", none)
    ∧ (sampleOperation .SubmitAction).GenerateCalldata wrappingRelease (sampleChain 5) ()
        [.bigInt (some (-1))] = .returned ("0xd0e30db0", none) := by
  exact ⟨sampleNetwork_builds .SubmitAction (Or.inl rfl), by decide, by decide⟩

/-- C9, amended: the operation checks no sign itself. For every `a < 0`, the
operation built for the deposit action returns the deposit calldata without
error whenever the cap query succeeds; the operation built for the withdraw
action hands `a` to the packer, so it returns the packer's sign error and no
calldata when the release has the sign check, and otherwise returns without
error the transfer calldata whose amount word holds `a mod 2^256`, the two's
complement of `a` in 256 bits. -/
theorem C9_negative_amount_not_rejected (lib : PackerRelease) (net : Network)
    (rpcURL contractAddress : String)
    (rdep rwd : RocketPoolOperation) (chain : Chain) {AssetKind : Type} (kind : AssetKind)
    (M : Nat) (a : Int)
    (rest : List GoValue) (recipient : Address)
    (hdep : NewRocketPool net rpcURL contractAddress .SubmitAction = (some rdep, none))
    (hwd : NewRocketPool net rpcURL contractAddress .WithdrawAction = (some rwd, none))
    (hcall : chain.Call rdep.contract "getMaximumDepositAmount" = .ok M)
    (hneg : a < 0) :
    rdep.GenerateCalldata lib chain kind (.bigInt (some a) :: rest)
      = .returned ("0xd0e30db0", none)
    ∧ (lib.rejectsNegative = true →
        rwd.GenerateCalldata lib chain kind [.address recipient, .bigInt (some a)]
          = .returned ("", some (.generateFailed .WithdrawAction .invalidSign)))
    ∧ (lib.rejectsNegative = false →
        rwd.GenerateCalldata lib chain kind [.address recipient, .bigInt (some a)]
          = .returned ("0x" ++ "a9059cbb" ++ addressWord recipient
              ++ hexWord (a % 2 ^ 256).toNat, none)) := by
  obtain ⟨hA, -, hABI, -⟩ := NewRocketPool_fields hdep
  obtain ⟨hA2, -, hABI2, -⟩ := NewRocketPool_fields hwd
  have hwithdraw : rwd.GenerateCalldata lib chain kind [.address recipient, .bigInt (some a)]
      = rwd.withdraw lib [.address recipient, .bigInt (some a)] := by
    unfold RocketPoolOperation.GenerateCalldata
    rw [hA2]
  refine ⟨?_, ?_, ?_⟩
  · unfold RocketPoolOperation.GenerateCalldata
    rw [hA]
    simp only []
    rw [deposit_of_amount lib rdep chain M a rest hABI hcall, if_neg (by omega)]
  · intro hcheck
    rw [hwithdraw, withdraw_of_recipient_amount lib rwd recipient a hABI2,
      if_pos ⟨hcheck, hneg⟩, hA2]
  · intro hwrap
    rw [hwithdraw, withdraw_of_recipient_amount lib rwd recipient a hABI2,
      if_neg (by simp [hwrap])]

/-- The witness of C9 as amended: the sample operations, cap five, amount −1,
under the release with the sign check. -/
theorem C9_negative_amount_not_rejected_witness :
    (NewRocketPool sampleNetwork "rpc" "0xstorage" .SubmitAction
        = (some (sampleOperation .SubmitAction), none)
      ∧ NewRocketPool sampleNetwork "rpc" "0xstorage" .WithdrawAction
        = (some (sampleOperation .WithdrawAction), none)
      ∧ (sampleChain 5).Call (sampleOperation .SubmitAction).contract
          "getMaximumDepositAmount" = .ok 5
      ∧ (-1 : Int) < 0)
    ∧ ((sampleOperation .SubmitAction).GenerateCalldata checkingRelease (sampleChain 5) ()
          [.bigInt (some (-1))] = .returned ("0xd0e30db0", none)
      ∧ (checkingRelease.rejectsNegative = true →
          (sampleOperation .WithdrawAction).GenerateCalldata checkingRelease (sampleChain 5) ()
            [.address 1, .bigInt (some (-1))]
          = .returned ("", some (.generateFailed .WithdrawAction .invalidSign)))
      ∧ (checkingRelease.rejectsNegative = false →
          (sampleOperation .WithdrawAction).GenerateCalldata checkingRelease (sampleChain 5) ()
            [.address 1, .bigInt (some (-1))]
          = .returned ("0x" ++ "a9059cbb" ++ addressWord 1
              ++ hexWord ((-1 : Int) % 2 ^ 256).toNat, none))) :=
  ⟨⟨sampleNetwork_builds .SubmitAction (Or.inl rfl),
    sampleNetwork_builds .WithdrawAction (Or.inr rfl), rfl, by decide⟩,
   C9_negative_amount_not_rejected checkingRelease sampleNetwork "rpc" "0xstorage"
    (sampleOperation .SubmitAction) (sampleOperation .WithdrawAction) (sampleChain 5) () 5
    (-1) [] 1 (sampleNetwork_builds .SubmitAction (Or.inl rfl))
    (sampleNetwork_builds .WithdrawAction (Or.inr rfl)) rfl (by decide)⟩

/-- C10, evaluated where it fails: on the operation the constructor returns for
the deposit action, with a cap query that succeeds, the empty argument
list ends in the index-out-of-range panic of `args[0]`, and a nil `*big.Int` passes
the type assertion and ends in the nil dereference of the comparison, under
either release of the packer; the withdraw path answers the empty list with an
error. -/
theorem C10_deposit_panics_on_missing_argument :
    NewRocketPool sampleNetwork "rpc" "0xstorage" .SubmitAction
      = (some (sampleOperation .SubmitAction), none)
    ∧ (sampleOperation .SubmitAction).GenerateCalldata checkingRelease (sampleChain 5) () []
      = .panicked "runtime error: index out of range [0] with length 0"
    ∧ (sampleOperation .SubmitAction).GenerateCalldata wrappingRelease (sampleChain 5) () []
      = .panicked "runtime error: index out of range [0] with length 0"
    ∧ (sampleOperation .SubmitAction).GenerateCalldata checkingRelease (sampleChain 5) ()
        [.bigInt none]
      = .panicked "runtime error: invalid memory address or nil pointer dereference"
    ∧ (sampleOperation .SubmitAction).GenerateCalldata wrappingRelease (sampleChain 5) ()
        [.bigInt none]
      = .panicked "runtime error: invalid memory address or nil pointer dereference"
    ∧ (sampleOperation .WithdrawAction).GenerateCalldata checkingRelease (sampleChain 5) () []
      = .returned ("", some (.generateFailed .WithdrawAction (.argumentCountMismatch 0 2))) := by
  exact ⟨sampleNetwork_builds .SubmitAction (Or.inl rfl), by decide, by decide, by decide,
    by decide, by decide⟩

/-! ### The registry -/

/-- Looking up a key other than the one just registered skips the new entry and
the filter that removed the old one. -/
theorem find_filter_ne (entries : List (RegistryKey × Protocol)) (key other : RegistryKey)
    (hne : other ≠ key) :
    (entries.filter fun e => e.1 ≠ key).find? (fun e => e.1 = other)
      = entries.find? (fun e => e.1 = other) := by
  induction entries with
  | nil => rfl
  | cons e es ih =>
    by_cases hk : e.1 = key
    · have hother : ¬ e.1 = other := fun h => hne (h.symm.trans hk)
      rw [List.filter_cons_of_neg (by simpa using hk),
        List.find?_cons_of_neg _ (by simpa using hother), ih]
    · rw [List.filter_cons_of_pos (by simpa using hk)]
      by_cases ho : e.1 = other
      · rw [List.find?_cons_of_pos _ (by simpa using ho),
          List.find?_cons_of_pos _ (by simpa using ho)]
      · rw [List.find?_cons_of_neg _ (by simpa using ho),
          List.find?_cons_of_neg _ (by simpa using ho), ih]

/-! ### The shape of the output -/

theorem hexDigit_isLowerHexDigit (n : Nat) : isLowerHexDigit (hexDigit n) = true := by
  by_cases h : n < 16
  · interval_cases n <;> decide
  · have hdefault : hexDigit n = '0' := by
      unfold hexDigit
      exact List.getD_eq_default _ _ (by
        have : hextable.data.length = 16 := by decide
        omega)
    rw [hdefault]
    decide

theorem encodeHexChars_all_lower (bs : List Nat) :
    (encodeHexChars bs).all isLowerHexDigit = true := by
  induction bs with
  | nil => rfl
  | cons b bs ih =>
    simp only [encodeHexChars, List.all_cons, hexDigit_isLowerHexDigit, ih, Bool.and_self]

theorem encodeHexChars_length (bs : List Nat) : (encodeHexChars bs).length = 2 * bs.length := by
  induction bs with
  | nil => rfl
  | cons b bs ih =>
    simp only [encodeHexChars, List.length_cons, ih]
    omega

theorem U256Bytes_length (n : Int) : (U256Bytes n).length = 32 := by
  unfold U256Bytes
  exact bigEndianBytes_length _ _

theorem LeftPadBytes_length (w : List Nat) : (LeftPadBytes w 32).length = max 32 w.length := by
  unfold LeftPadBytes
  split
  · omega
  · simp only [List.length_append, List.length_replicate]
    omega

/-- The text of packed bytes: the marker and then the digits of the bytes. -/
theorem calldata_text_data (bs : List Nat) :
    (HexPrefix ++ EncodeToString bs).data = '0' :: 'x' :: encodeHexChars bs := rfl

/-- The packer writes a word for an address parameter only from a value of kind
array, whose bytes it pads on the left to 32. -/
theorem packValue_address_ok (lib : PackerRelease) (v : GoValue) (word : List Nat)
    (h : packValue lib .AddressTy v = .returned (.ok word)) :
    ∃ w, v.arrayBytes = some w ∧ word = LeftPadBytes w 32 := by
  cases v with
  | address a =>
    simp [packValue, AbiType.kind, GoValue.kind] at h
    exact ⟨a.Bytes, rfl, h.symm⟩
  | byteArray bs =>
    simp [packValue, AbiType.kind, GoValue.kind] at h
    exact ⟨bs.map (· % 256), rfl, h.symm⟩
  | bigInt p => cases p <;> simp [packValue, AbiType.kind, GoValue.kind] at h
  | _ => simp [packValue, AbiType.kind, GoValue.kind] at h

/-- The packer writes a word for a `uint256` parameter only from a `*big.Int`
that is not nil, as its 32 bytes. -/
theorem packValue_uint256_ok (lib : PackerRelease) (v : GoValue) (word : List Nat)
    (h : packValue lib (.UintTy 256) v = .returned (.ok word)) :
    ∃ n, v = .bigInt (some n) ∧ word = U256Bytes n := by
  cases v with
  | bigInt p =>
    cases p with
    | none => simp [packValue] at h
    | some n =>
      by_cases hs : lib.rejectsNegative = true ∧ n < 0
      · simp [packValue, AbiType.kind, GoValue.kind, hs] at h
      · simp [packValue, AbiType.kind, GoValue.kind, hs] at h
        exact ⟨n, rfl, h.symm⟩
  | _ => simp [packValue, AbiType.kind, GoValue.kind] at h

/-- A call of the withdraw path that returns without error was given exactly two
arguments, a value of kind array and a `*big.Int` that is not nil, and returns
the text of the selector, the array left-padded to 32 bytes and the word of the
integer. -/
theorem withdraw_success_shape (lib : PackerRelease) (r : RocketPoolOperation)
    (args : List GoValue) (s : String) (hABI : r.parsedABI = RocketPoolABI)
    (h : r.withdraw lib args = .returned (s, none)) :
    ∃ v n w, args = [v, .bigInt (some n)] ∧ v.arrayBytes = some w
      ∧ s = HexPrefix ++ EncodeToString
          ([0xa9, 0x05, 0x9c, 0xbb] ++ (LeftPadBytes w 32 ++ U256Bytes n)) := by
  unfold RocketPoolOperation.withdraw at h
  rw [hABI, RocketPoolABI_transfer] at h
  simp only [] at h
  unfold ABI.Pack at h
  rw [RocketPoolABI_transfer] at h
  simp only [] at h
  match args, h with
  | [], h => simp [Arguments.Pack] at h
  | [_], h => simp [Arguments.Pack] at h
  | _ :: _ :: _ :: _, h => simp [Arguments.Pack] at h
  | [v, x], h =>
    cases hv : packValue lib .AddressTy v with
    | panicked m => simp [Arguments.Pack, packArgs, hv] at h
    | returned res =>
      cases res with
      | error e => simp [Arguments.Pack, packArgs, hv] at h
      | ok w1 =>
        cases hx : packValue lib (.UintTy 256) x with
        | panicked m => simp [Arguments.Pack, packArgs, hv, hx] at h
        | returned res2 =>
          cases res2 with
          | error e => simp [Arguments.Pack, packArgs, hv, hx] at h
          | ok w2 =>
            simp [Arguments.Pack, packArgs, hv, hx] at h
            obtain ⟨w, hw, hw1⟩ := packValue_address_ok lib v w1 hv
            obtain ⟨n, hn, hw2⟩ := packValue_uint256_ok lib x w2 hx
            refine ⟨v, n, w, by rw [hn], hw, ?_⟩
            rw [← h, hw1, hw2]
            simp

/-- A text in the format with `words` argument words has `10 + 64 * words` characters. -/
theorem hasCalldataFormat_length (words : Nat) (s : String)
    (h : hasCalldataFormat words s = true) : s.length = 10 + 64 * words := by
  cases s with
  | mk data =>
    unfold hasCalldataFormat at h
    split at h
    · rename_i digits hdata
      simp only [Bool.and_eq_true, beq_iff_eq] at h
      have hd : data = '0' :: 'x' :: digits := hdata
      show data.length = 10 + 64 * words
      rw [hd, List.length_cons, List.length_cons, h.2]
      omega
    · simp at h

/-- The text of the deposit call has the format with no argument word. -/
theorem deposit_text_format : hasCalldataFormat 0 "0xd0e30db0" = true ∧ "0xd0e30db0".length = 10 := by
  decide

/-- The text of a transfer call packed from an array of bytes `w` and an integer:
its characters, its selector digits and its length. -/
theorem transfer_text_shape (w : List Nat) (n : Int) :
    (∃ digits, (HexPrefix ++ EncodeToString
          ([0xa9, 0x05, 0x9c, 0xbb] ++ (LeftPadBytes w 32 ++ U256Bytes n))).data
        = '0' :: 'x' :: digits ∧ digits.all isLowerHexDigit = true
        ∧ digits.length = 8 + 2 * max 32 w.length + 64)
    ∧ (HexPrefix ++ EncodeToString
          ([0xa9, 0x05, 0x9c, 0xbb] ++ (LeftPadBytes w 32 ++ U256Bytes n))).data.take 10
        = "0xa9059cbb".data := by
  refine ⟨⟨_, calldata_text_data _, encodeHexChars_all_lower _, ?_⟩, ?_⟩
  · rw [encodeHexChars_length]
    simp only [List.length_append, List.length_cons, List.length_nil, LeftPadBytes_length,
      U256Bytes_length]
    omega
  · rw [calldata_text_data]
    rfl

/-- A text made of the marker and lowercase digits, `8 + 64 * words` of them, has the format. -/
theorem hasCalldataFormat_of_data (words : Nat) (s : String) (digits : List Char)
    (hdata : s.data = '0' :: 'x' :: digits) (hall : digits.all isLowerHexDigit = true)
    (hlen : digits.length = 8 + 64 * words) : hasCalldataFormat words s = true := by
  unfold hasCalldataFormat
  rw [hdata]
  simp only [hall, hlen, beq_self_eq_true, Bool.and_self]

theorem string_length_of_data (s : String) (digits : List Char)
    (hdata : s.data = '0' :: 'x' :: digits) : s.length = digits.length + 2 := by
  cases s with
  | mk data =>
    have hd : data = '0' :: 'x' :: digits := hdata
    show data.length = digits.length + 2
    rw [hd]
    rfl

/-! ### The paths and the chain -/

/-- The deposit path reads the chain through the cap query alone. -/
theorem deposit_congr_query (lib : PackerRelease) (r : RocketPoolOperation)
    (chain1 chain2 : Chain) (args : List GoValue)
    (hquery : chain1.Call r.contract "getMaximumDepositAmount"
      = chain2.Call r.contract "getMaximumDepositAmount") :
    r.deposit lib chain1 args = r.deposit lib chain2 args := by
  unfold RocketPoolOperation.deposit
  rw [hquery]

/-! ## The claims, continued -/

/-- C11: `GetContractAddress` returns the address of the deposit-pool contract
when the operation's action is `SubmitAction` and the address of the rETH token
contract for every other action; the error is always nil, the context argument
does not matter, and the result is determined by the stored fields. -/
theorem C11_contract_address_by_action {Context : Type} (r : RocketPoolOperation)
    (ctx ctx2 : Context) :
    r.GetContractAddress ctx
      = (if r.action = .SubmitAction then r.contract.Address else r.rethContract.Address,
         none)
    ∧ (r.GetContractAddress ctx).2 = none
    ∧ r.GetContractAddress ctx2 = r.GetContractAddress ctx := by
  have h : r.GetContractAddress ctx
      = (if r.action = .SubmitAction then r.contract.Address else r.rethContract.Address,
         none) := by
    unfold RocketPoolOperation.GetContractAddress
    split
    · rename_i heq
      simp [heq]
    · rename_i hne
      have : ¬ r.action = .SubmitAction := fun heq => hne heq
      simp [this]
  have h2 : r.GetContractAddress ctx2 = r.GetContractAddress ctx := rfl
  refine ⟨h, ?_, h2⟩
  rw [h]

/-- C12: `Validate` returns no error exactly for the assets `IsNativeToken`
accepts; for every other asset it returns the error whose message is
`unsupported asset for rocket pool staking (…)` with the hex text of the asset
between the brackets. -/
theorem C12_validate_accepts_only_native (IsNativeToken : Address → Bool)
    (Hex : Address → String) (r : RocketPoolOperation) (asset : Address) :
    (r.Validate IsNativeToken Hex asset = none ↔ IsNativeToken asset = true)
    ∧ (IsNativeToken asset = false →
        r.Validate IsNativeToken Hex asset
          = some (.errorsNew
              ("unsupported asset for rocket pool staking (" ++ Hex asset ++ ")"))) := by
  unfold RocketPoolOperation.Validate
  by_cases h : IsNativeToken asset = true
  · simp [h]
  · simp [h]

/-- C13, as stated, fails: the withdraw action accepts a byte array of 40 bytes
in the place of the recipient, under either release of the packer; the packer
writes it unpadded, and the returned text has 154 characters, which is not the
selector followed by a whole number of 64-digit words. -/
theorem C13_output_format_counterexample :
    NewRocketPool sampleNetwork "rpc" "0xstorage" .WithdrawAction
      = (some (sampleOperation .WithdrawAction), none)
    ∧ (sampleOperation .WithdrawAction).GenerateCalldata checkingRelease (sampleChain 0) ()
        [.byteArray (List.replicate 40 1), .bigInt (some 1)]
      = .returned ("0xa9059cbb"
          ++ "01010101010101010101010101010101010101010101010101010101010101010101010101010101"
          ++ "0000000000000000000000000000000000000000000000000000000000000001", none)
    ∧ (sampleOperation .WithdrawAction).GenerateCalldata wrappingRelease (sampleChain 0) ()
        [.byteArray (List.replicate 40 1), .bigInt (some 1)]
      = .returned ("0xa9059cbb"
          ++ "01010101010101010101010101010101010101010101010101010101010101010101010101010101"
          ++ "0000000000000000000000000000000000000000000000000000000000000001", none)
    ∧ ("0xa9059cbb"
          ++ "01010101010101010101010101010101010101010101010101010101010101010101010101010101"
          ++ "0000000000000000000000000000000000000000000000000000000000000001").length = 154
    ∧ hasCalldataFormat 2 ("0xa9059cbb"
          ++ "01010101010101010101010101010101010101010101010101010101010101010101010101010101"
          ++ "0000000000000000000000000000000000000000000000000000000000000001") = false
    ∧ ∀ words, hasCalldataFormat words ("0xa9059cbb"
          ++ "01010101010101010101010101010101010101010101010101010101010101010101010101010101"
          ++ "0000000000000000000000000000000000000000000000000000000000000001") = false := by
  refine ⟨sampleNetwork_builds .WithdrawAction (Or.inr rfl), by rfl, by rfl, by rfl, by rfl, ?_⟩
  intro words
  cases hfmt : hasCalldataFormat words ("0xa9059cbb"
      ++ "01010101010101010101010101010101010101010101010101010101010101010101010101010101"
      ++ "0000000000000000000000000000000000000000000000000000000000000001") with
  | false => rfl
  | true =>
    have hlen := hasCalldataFormat_length _ _ hfmt
    have h154 : ("0xa9059cbb"
      ++ "01010101010101010101010101010101010101010101010101010101010101010101010101010101"
      ++ "0000000000000000000000000000000000000000000000000000000000000001").length = 154 := by rfl
    omega

/-- C13, amended: every string that `GenerateCalldata` of an operation built by
the constructor returns without error is the marker `0x` followed by lowercase
hexadecimal digits only. For the deposit action it is `0xd0e30db0`, the selector
and no word (length 10). For the withdraw action the arguments were a value of
kind array with bytes `w` and a `*big.Int`, the text starts with `0xa9059cbb`
and has `10 + 2 * max 32 |w| + 64` characters; when `w` has at most 32 bytes,
as a `common.Address` has, it is the selector followed by two 64-digit words
(length 138). -/
theorem C13_output_format (lib : PackerRelease) (net : Network)
    (rpcURL contractAddress : String) (action : ContractAction) (r : RocketPoolOperation)
    (chain : Chain) {AssetKind : Type} (kind : AssetKind) (args : List GoValue) (s : String)
    (hnew : NewRocketPool net rpcURL contractAddress action = (some r, none))
    (hok : r.GenerateCalldata lib chain kind args = .returned (s, none)) :
    (∃ digits, s.data = '0' :: 'x' :: digits ∧ digits.all isLowerHexDigit = true)
    ∧ (action = .SubmitAction →
        s = "0xd0e30db0" ∧ hasCalldataFormat 0 s = true ∧ s.length = 10)
    ∧ (action = .WithdrawAction →
        ∃ v n w, args = [v, .bigInt (some n)] ∧ v.arrayBytes = some w
          ∧ s.data.take 10 = "0xa9059cbb".data
          ∧ s.length = 10 + 2 * max 32 w.length + 64
          ∧ (w.length ≤ 32 → hasCalldataFormat 2 s = true ∧ s.length = 138)
          ∧ ((∃ recipient, v = .address recipient) →
              hasCalldataFormat 2 s = true ∧ s.length = 138)) := by
  obtain ⟨hA, -, hABI, -, -, -, hact⟩ := NewRocketPool_fields hnew
  unfold RocketPoolOperation.GenerateCalldata at hok
  rw [hA] at hok
  rcases hact with hact | hact
  · subst hact
    have hs : s = "0xd0e30db0" := deposit_success_text lib r chain args s hABI hok
    subst hs
    refine ⟨⟨"d0e30db0".data, rfl, by decide⟩, fun _ => ⟨rfl, by decide, by decide⟩, ?_⟩
    intro h
    exact absurd h (by decide)
  · subst hact
    obtain ⟨v, n, w, hargs, hw, hs⟩ := withdraw_success_shape lib r args s hABI hok
    obtain ⟨⟨digits, hdata, hall, hlen⟩, htake⟩ := transfer_text_shape w n
    rw [← hs] at hdata htake
    have hslen : s.length = 10 + 2 * max 32 w.length + 64 := by
      rw [string_length_of_data s digits hdata, hlen]
      omega
    have hsmall : w.length ≤ 32 → hasCalldataFormat 2 s = true ∧ s.length = 138 := by
      intro hle
      have hmax : max 32 w.length = 32 := by omega
      refine ⟨hasCalldataFormat_of_data 2 s digits hdata hall ?_, ?_⟩
      · rw [hlen, hmax]
      · rw [hslen, hmax]
    refine ⟨⟨digits, hdata, hall⟩, ?_, ?_⟩
    · intro h
      exact absurd h (by decide)
    · intro _
      refine ⟨v, n, w, hargs, hw, htake, hslen, hsmall, ?_⟩
      rintro ⟨recipient, hv⟩
      apply hsmall
      rw [hv] at hw
      have hbytes : w = recipient.Bytes := by
        simp only [GoValue.arrayBytes, Option.some.injEq] at hw
        exact hw.symm
      rw [hbytes]
      unfold Address.Bytes
      rw [bigEndianBytes_length]
      omega

/-- The witness of C13 as amended: the sample withdraw operation, recipient `0x…01`, amount 7. -/
theorem C13_output_format_witness :
    (NewRocketPool sampleNetwork "rpc" "0xstorage" .WithdrawAction
        = (some (sampleOperation .WithdrawAction), none)
      ∧ (sampleOperation .WithdrawAction).GenerateCalldata checkingRelease (sampleChain 0) ()
          [.address 1, .bigInt (some 7)]
        = .returned ("0xa9059cbb"
            ++ "0000000000000000000000000000000000000000000000000000000000000001"
            ++ "0000000000000000000000000000000000000000000000000000000000000007", none))
    ∧ hasCalldataFormat 2 ("0xa9059cbb"
        ++ "0000000000000000000000000000000000000000000000000000000000000001"
        ++ "0000000000000000000000000000000000000000000000000000000000000007") = true
    ∧ ("0xa9059cbb"
        ++ "0000000000000000000000000000000000000000000000000000000000000001"
        ++ "0000000000000000000000000000000000000000000000000000000000000007").length = 138 :=
  have h := C13_output_format checkingRelease sampleNetwork "rpc" "0xstorage" .WithdrawAction
    (sampleOperation .WithdrawAction) (sampleChain 0) () [.address 1, .bigInt (some 7)]
    ("0xa9059cbb"
      ++ "0000000000000000000000000000000000000000000000000000000000000001"
      ++ "0000000000000000000000000000000000000000000000000000000000000007")
    (sampleNetwork_builds .WithdrawAction (Or.inr rfl)) (by rfl)
  ⟨⟨sampleNetwork_builds .WithdrawAction (Or.inr rfl), by rfl⟩,
   by
    obtain ⟨-, -, hw⟩ := h
    obtain ⟨v, n, w, hargs, -, -, -, -, haddr⟩ := hw rfl
    have hv : v = .address 1 := by
      simp only [List.cons.injEq] at hargs
      exact hargs.1.symm
    exact haddr ⟨1, hv⟩⟩

/-- C14: `NewAaveOperation` succeeds for both fork selectors; the operation
built for `AaveProtocolForkAave` is named `AaveV3`, the one built for
`AaveProtocolForkSpark` is named `SparkLend`, and the two names differ. -/
theorem C14_fork_identity :
    ∃ aave spark,
      NewAaveOperation .AaveProtocolForkAave = (some aave, none)
      ∧ NewAaveOperation .AaveProtocolForkSpark = (some spark, none)
      ∧ aave.Name = .AaveV3 ∧ spark.Name = .SparkLend ∧ aave.Name ≠ spark.Name :=
  ⟨{ fork := .AaveProtocolForkAave }, { fork := .AaveProtocolForkSpark }, rfl, rfl, rfl, rfl,
    by decide⟩

/-- C15, as stated, fails: the same operation, called twice with the same
argument list (the amount 5), returns the deposit calldata while the live cap
is 5 and the capacity error once the live cap is 4. -/
theorem C15_deterministic_counterexample :
    NewRocketPool sampleNetwork "rpc" "0xstorage" .SubmitAction
      = (some (sampleOperation .SubmitAction), none)
    ∧ (sampleOperation .SubmitAction).GenerateCalldata checkingRelease (sampleChain 5) ()
        [.bigInt (some 5)] = .returned ("0xd0e30db0", none)
    ∧ (sampleOperation .SubmitAction).GenerateCalldata checkingRelease (sampleChain 4) ()
        [.bigInt (some 5)]
      = .returned ("", some (.errorsNew
          "rocketpool not accepting this much eth deposit at this time"))
    ∧ (sampleOperation .SubmitAction).GenerateCalldata checkingRelease (sampleChain 5) ()
        [.bigInt (some 5)]
      ≠ (sampleOperation .SubmitAction).GenerateCalldata checkingRelease (sampleChain 4) ()
        [.bigInt (some 5)] := by
  exact ⟨sampleNetwork_builds .SubmitAction (Or.inl rfl), by decide, by decide, by decide⟩

/-- C15, amended: `GenerateCalldata` of an operation built by the constructor
is determined by its arguments and the answer of the live cap query. Two calls
with the same arguments return the same result whenever the query answers the
same, for the withdraw action on every two chains, and whenever both calls
return without error the two strings are the same. -/
theorem C15_deterministic_given_cap (lib : PackerRelease) (net : Network)
    (rpcURL contractAddress : String) (action : ContractAction) (r : RocketPoolOperation)
    (chain1 chain2 : Chain) {AssetKind : Type} (kind : AssetKind) (args : List GoValue)
    (hnew : NewRocketPool net rpcURL contractAddress action = (some r, none)) :
    (chain1.Call r.contract "getMaximumDepositAmount"
        = chain2.Call r.contract "getMaximumDepositAmount" →
      r.GenerateCalldata lib chain1 kind args = r.GenerateCalldata lib chain2 kind args)
    ∧ (action = .WithdrawAction →
        r.GenerateCalldata lib chain1 kind args = r.GenerateCalldata lib chain2 kind args)
    ∧ (∀ s1 s2, r.GenerateCalldata lib chain1 kind args = .returned (s1, none) →
        r.GenerateCalldata lib chain2 kind args = .returned (s2, none) → s1 = s2) := by
  obtain ⟨hA, -, hABI, -, -, -, hact⟩ := NewRocketPool_fields hnew
  have hwithdraw : action = .WithdrawAction →
      r.GenerateCalldata lib chain1 kind args = r.GenerateCalldata lib chain2 kind args := by
    intro h
    unfold RocketPoolOperation.GenerateCalldata
    rw [hA, h]
  refine ⟨?_, hwithdraw, ?_⟩
  · intro hquery
    rcases hact with h | h
    · unfold RocketPoolOperation.GenerateCalldata
      rw [hA, h]
      exact deposit_congr_query lib r chain1 chain2 args hquery
    · exact hwithdraw h
  · intro s1 s2 h1 h2
    rcases hact with h | h
    · unfold RocketPoolOperation.GenerateCalldata at h1 h2
      rw [hA, h] at h1 h2
      rw [deposit_success_text lib r chain1 args s1 hABI h1,
        deposit_success_text lib r chain2 args s2 hABI h2]
    · rw [hwithdraw h, h2] at h1
      injection h1 with h1
      injection h1 with h1
      exact h1.symm

/-- The witness of C15 as amended: the sample deposit operation on two chains
whose cap is five. -/
theorem C15_deterministic_given_cap_witness :
    NewRocketPool sampleNetwork "rpc" "0xstorage" .SubmitAction
        = (some (sampleOperation .SubmitAction), none)
    ∧ (((sampleChain 5).Call (sampleOperation .SubmitAction).contract
            "getMaximumDepositAmount"
          = (sampleChain 5).Call (sampleOperation .SubmitAction).contract
            "getMaximumDepositAmount" →
        (sampleOperation .SubmitAction).GenerateCalldata checkingRelease (sampleChain 5) ()
            [.bigInt (some 5)]
          = (sampleOperation .SubmitAction).GenerateCalldata checkingRelease (sampleChain 5) ()
            [.bigInt (some 5)])
      ∧ (ContractAction.SubmitAction = .WithdrawAction →
        (sampleOperation .SubmitAction).GenerateCalldata checkingRelease (sampleChain 5) ()
            [.bigInt (some 5)]
          = (sampleOperation .SubmitAction).GenerateCalldata checkingRelease (sampleChain 5) ()
            [.bigInt (some 5)])
      ∧ (∀ s1 s2,
        (sampleOperation .SubmitAction).GenerateCalldata checkingRelease (sampleChain 5) ()
            [.bigInt (some 5)] = .returned (s1, none) →
        (sampleOperation .SubmitAction).GenerateCalldata checkingRelease (sampleChain 5) ()
            [.bigInt (some 5)] = .returned (s2, none) → s1 = s2)) :=
  ⟨sampleNetwork_builds .SubmitAction (Or.inl rfl),
   C15_deterministic_given_cap checkingRelease sampleNetwork "rpc" "0xstorage" .SubmitAction
    (sampleOperation .SubmitAction) (sampleChain 5) (sampleChain 5) () [.bigInt (some 5)]
    (sampleNetwork_builds .SubmitAction (Or.inl rfl))⟩

/-- C16: on an operation built for the deposit action, when the cap query
succeeds and `args[0]` is not a `*big.Int`, `GenerateCalldata` returns the empty
string and the error `arg is not of type *big.Int`, whatever the cap and the
remaining arguments are. -/
theorem C16_deposit_rejects_other_types (lib : PackerRelease) (net : Network)
    (rpcURL contractAddress : String) (r : RocketPoolOperation) (chain : Chain)
    {AssetKind : Type} (kind : AssetKind) (M : Nat) (v : GoValue) (rest : List GoValue)
    (hnew : NewRocketPool net rpcURL contractAddress .SubmitAction = (some r, none))
    (hcall : chain.Call r.contract "getMaximumDepositAmount" = .ok M)
    (htype : ∀ p, v ≠ .bigInt p) :
    r.GenerateCalldata lib chain kind (v :: rest)
      = .returned ("", some (.errorsNew "arg is not of type *big.Int")) := by
  obtain ⟨hA, -, hABI, -⟩ := NewRocketPool_fields hnew
  unfold RocketPoolOperation.GenerateCalldata
  rw [hA]
  simp only []
  unfold RocketPoolOperation.deposit
  rw [hABI, RocketPoolABI_deposit]
  simp only [hcall]
  cases v with
  | bigInt p => exact absurd rfl (htype p)
  | _ => rfl

/-- The witness of C16: the sample operation under a cap of five, given the string `5`. -/
theorem C16_deposit_rejects_other_types_witness :
    (NewRocketPool sampleNetwork "rpc" "0xstorage" .SubmitAction
        = (some (sampleOperation .SubmitAction), none)
      ∧ (sampleChain 5).Call (sampleOperation .SubmitAction).contract
          "getMaximumDepositAmount" = .ok 5
      ∧ ∀ p, GoValue.str "5" ≠ .bigInt p)
    ∧ (sampleOperation .SubmitAction).GenerateCalldata checkingRelease (sampleChain 5) ()
        [.str "5", .bigInt (some 1)]
      = .returned ("", some (.errorsNew "arg is not of type *big.Int")) :=
  ⟨⟨sampleNetwork_builds .SubmitAction (Or.inl rfl), rfl, fun _ h => GoValue.noConfusion h⟩,
   C16_deposit_rejects_other_types checkingRelease sampleNetwork "rpc" "0xstorage"
    (sampleOperation .SubmitAction) (sampleChain 5) () 5 (.str "5") [.bigInt (some 1)]
    (sampleNetwork_builds .SubmitAction (Or.inl rfl)) rfl (fun _ h => GoValue.noConfusion h)⟩

/-- C17: after `r.Register(registry)`, resolving the key of `r` (its protocol,
action and chain) returns `r` with `found = true` whatever the registry held
under that key, every other key resolves as before, and for an operation built
by `NewRocketPool` the key is `RocketPool`, the constructor's action and chain 1. -/
theorem C17_register_stores_under_own_key (registry : ProtocolRegistry)
    (r : RocketPoolOperation) :
    (r.Register registry).Resolve r.Protocol r.Action r.ChainID = (some (.rocketPool r), true)
    ∧ (∀ protocol action chain,
        (protocol, action, chain) ≠ (r.Protocol, r.Action, r.ChainID) →
        (r.Register registry).Resolve protocol action chain
          = registry.Resolve protocol action chain)
    ∧ (∀ net rpcURL contractAddress action,
        NewRocketPool net rpcURL contractAddress action = (some r, none) →
        (r.Register registry).Resolve .RocketPool action 1 = (some (.rocketPool r), true)) := by
  have hown : (r.Register registry).Resolve r.Protocol r.Action r.ChainID
      = (some (.rocketPool r), true) := by
    simp [RocketPoolOperation.Register, ProtocolRegistry.RegisterProtocolOperation,
      ProtocolRegistry.Resolve]
  refine ⟨hown, ?_, ?_⟩
  · intro protocol action chain hne
    have hkey : ({ protocol := protocol, action := action, chain := chain } : RegistryKey)
        ≠ { protocol := r.Protocol, action := r.Action, chain := r.ChainID } := by
      intro h
      injection h with h1 h2 h3
      exact hne (by rw [h1, h2, h3])
    unfold RocketPoolOperation.Register ProtocolRegistry.RegisterProtocolOperation
      ProtocolRegistry.Resolve
    simp only [List.find?_cons]
    have hfirst : ¬ ({ protocol := r.Protocol, action := r.Action, chain := r.ChainID }
        : RegistryKey) = { protocol := protocol, action := action, chain := chain } :=
      fun h => hkey h.symm
    simp only [hfirst, decide_False]
    rw [find_filter_ne registry.protocols _ _ hkey]
  · intro net rpcURL contractAddress action hnew
    obtain ⟨hA, -, -, hP, hC, -⟩ := NewRocketPool_fields hnew
    rw [← hP, ← hA, ← hC]
    exact hown

/-- C18: every operation the constructor returns without error has both action
fields equal to the requested action, which is `SubmitAction` or
`WithdrawAction`, the protocol `RocketPool`, the chain 1 and a parsed ABI with
the methods `deposit` and `transfer`. On it `GenerateCalldata` does not return
the error `unsupported action` (as long as the cap query does not itself fail
with that error), and `GetContractAddress` selects the deposit contract exactly
when `GenerateCalldata` takes the deposit path, the token contract exactly when
it takes the withdraw path. -/
theorem C18_constructor_invariant (lib : PackerRelease) (net : Network)
    (rpcURL contractAddress : String) (action : ContractAction) (r : RocketPoolOperation)
    (chain : Chain) {AssetKind : Type} (kind : AssetKind) {Context : Type} (ctx : Context)
    (args : List GoValue)
    (hnew : NewRocketPool net rpcURL contractAddress action = (some r, none))
    (hchain : chain.Call r.contract "getMaximumDepositAmount"
      ≠ .error (.errorsNew "unsupported action")) :
    (r.Action = action ∧ r.action = action ∧ r.Action = r.action
      ∧ (action = .SubmitAction ∨ action = .WithdrawAction)
      ∧ r.Protocol = .RocketPool ∧ r.ChainID = 1
      ∧ (r.parsedABI.method "deposit").isSome = true
      ∧ (r.parsedABI.method "transfer").isSome = true)
    ∧ (∀ s, r.GenerateCalldata lib chain kind args
        ≠ .returned (s, some (.errorsNew "unsupported action")))
    ∧ ((action = .SubmitAction
          ∧ r.GetContractAddress ctx = (r.contract.Address, none)
          ∧ r.GenerateCalldata lib chain kind args = r.deposit lib chain args)
        ∨ (action = .WithdrawAction
          ∧ r.GetContractAddress ctx = (r.rethContract.Address, none)
          ∧ r.GenerateCalldata lib chain kind args = r.withdraw lib args)) := by
  obtain ⟨hA, ha, hABI, hP, hC, -, hact⟩ := NewRocketPool_fields hnew
  have hfields : r.Action = action ∧ r.action = action ∧ r.Action = r.action
      ∧ (action = .SubmitAction ∨ action = .WithdrawAction)
      ∧ r.Protocol = .RocketPool ∧ r.ChainID = 1
      ∧ (r.parsedABI.method "deposit").isSome = true
      ∧ (r.parsedABI.method "transfer").isSome = true := by
    refine ⟨hA, ha, hA.trans ha.symm, hact, hP, hC, ?_, ?_⟩
    · rw [hABI, RocketPoolABI_deposit]
      rfl
    · rw [hABI, RocketPoolABI_transfer]
      rfl
  rcases hact with h | h
  · have hgen : r.GenerateCalldata lib chain kind args = r.deposit lib chain args := by
      unfold RocketPoolOperation.GenerateCalldata
      rw [hA, h]
    have haddr : r.GetContractAddress ctx = (r.contract.Address, none) := by
      unfold RocketPoolOperation.GetContractAddress
      rw [ha, h]
    refine ⟨hfields, ?_, Or.inl ⟨h, haddr, hgen⟩⟩
    intro s hs
    rw [hgen] at hs
    unfold RocketPoolOperation.deposit at hs
    rw [hABI, RocketPoolABI_deposit] at hs
    simp only [RocketPoolABI_pack_deposit] at hs
    split at hs
    · rename_i err herr
      simp only [Run.returned.injEq, Prod.mk.injEq, Option.some.injEq, true_and] at hs
      rw [hs.2] at herr
      exact hchain herr
    · split at hs
      · simp at hs
      · simp at hs
      · split at hs
        · simp at hs
        · simp at hs
      · simp at hs
  · have hgen : r.GenerateCalldata lib chain kind args = r.withdraw lib args := by
      unfold RocketPoolOperation.GenerateCalldata
      rw [hA, h]
    have haddr : r.GetContractAddress ctx = (r.rethContract.Address, none) := by
      unfold RocketPoolOperation.GetContractAddress
      rw [ha, h]
    refine ⟨hfields, ?_, Or.inr ⟨h, haddr, hgen⟩⟩
    intro s hs
    rw [hgen] at hs
    unfold RocketPoolOperation.withdraw at hs
    rw [hABI, RocketPoolABI_transfer] at hs
    simp only [] at hs
    split at hs
    · simp at hs
    · simp at hs
    · simp at hs

/-- The witness of C18: the sample deposit operation, cap five, amount 5. -/
theorem C18_constructor_invariant_witness :
    (NewRocketPool sampleNetwork "rpc" "0xstorage" .SubmitAction
        = (some (sampleOperation .SubmitAction), none)
      ∧ (sampleChain 5).Call (sampleOperation .SubmitAction).contract
          "getMaximumDepositAmount" ≠ .error (.errorsNew "unsupported action"))
    ∧ (((sampleOperation .SubmitAction).Action = .SubmitAction
        ∧ (sampleOperation .SubmitAction).action = .SubmitAction
        ∧ (sampleOperation .SubmitAction).Action = (sampleOperation .SubmitAction).action
        ∧ (ContractAction.SubmitAction = .SubmitAction
            ∨ ContractAction.SubmitAction = .WithdrawAction)
        ∧ (sampleOperation .SubmitAction).Protocol = .RocketPool
        ∧ (sampleOperation .SubmitAction).ChainID = 1
        ∧ ((sampleOperation .SubmitAction).parsedABI.method "deposit").isSome = true
        ∧ ((sampleOperation .SubmitAction).parsedABI.method "transfer").isSome = true)
      ∧ (∀ s, (sampleOperation .SubmitAction).GenerateCalldata checkingRelease
            (sampleChain 5) () [.bigInt (some 5)]
          ≠ .returned (s, some (.errorsNew "unsupported action")))
      ∧ ((ContractAction.SubmitAction = .SubmitAction
            ∧ (sampleOperation .SubmitAction).GetContractAddress ()
                = ((sampleOperation .SubmitAction).contract.Address, none)
            ∧ (sampleOperation .SubmitAction).GenerateCalldata checkingRelease
                (sampleChain 5) () [.bigInt (some 5)]
              = (sampleOperation .SubmitAction).deposit checkingRelease (sampleChain 5)
                [.bigInt (some 5)])
          ∨ (ContractAction.SubmitAction = .WithdrawAction
            ∧ (sampleOperation .SubmitAction).GetContractAddress ()
                = ((sampleOperation .SubmitAction).rethContract.Address, none)
            ∧ (sampleOperation .SubmitAction).GenerateCalldata checkingRelease
                (sampleChain 5) () [.bigInt (some 5)]
              = (sampleOperation .SubmitAction).withdraw checkingRelease
                [.bigInt (some 5)]))) :=
  ⟨⟨sampleNetwork_builds .SubmitAction (Or.inl rfl), fun h => Except.noConfusion h⟩,
   C18_constructor_invariant checkingRelease sampleNetwork "rpc" "0xstorage" .SubmitAction
    (sampleOperation .SubmitAction) (sampleChain 5) () () [.bigInt (some 5)]
    (sampleNetwork_builds .SubmitAction (Or.inl rfl)) (fun h => Except.noConfusion h)⟩

end ProtocolRegistry
